import Mathlib

/-!
# WasmGCTypeReducer: a shallow embedding

Embedding of `src/compiler/turboshaft/wasm-gc-type-reducer.h`: the reducer half of the
Wasm GC type optimisation.  The reducer reads, for every operation, the input type that the
analyzer recorded and rewrites casts, checks, null assertions, null tests and accesses with
a null check into cheaper operations of the output graph; it also folds an
`AnyConvertExtern` of an `ExternConvertAny`.

Conventions of the embedding:

* the output graph is a list of operations, an `OpIndex` is a position in it, and every
  assembler call `__ Op(...)` appends one operation and returns its position;
* `GetInputType` has no result for an operation without an entry: its
  `DCHECK_NE(iter, end)` is a fatal failure and a reduction returns `Except.error` there;
  the assertion `DCHECK_NE(kWasmBottom, from_type)` of the fall-through paths takes no part
  in what a reduction emits or returns and is not a branch of the embedding;
* the subtyping queries of `wasm-subtyping.h` depend on the module and are a parameter
  (`WasmModule`); the rest of the reducer stack (`Next`) is a parameter as well.
-/

namespace WasmGC

/-! ## Data model -/

/-- Modelled from the spec: `wasm::ValueType` is declared in `wasm/value-type.h`, which is not
among the sources.  Following the data model of the spec, a value type is a heap type
qualified by nullability, or one of two sentinels: `top`, the default-constructed
`wasm::ValueType()` that stands for "no information", and `bottom`, `wasm::kWasmBottom`. -/
inductive ValueType (H : Type) where
  | top
  | bottom
  | ref (heap : H) (nullable : Bool)
  deriving DecidableEq, Repr

/-- The constant `wasm::kWasmBottom`. -/
abbrev kWasmBottom {H : Type} : ValueType H := ValueType.bottom

/-- Method `ValueType::heap_type()`.  The source only calls it on reference types; on
the two sentinels the embedding returns the default heap type. -/
def ValueType.heap_type {H : Type} [Inhabited H] : ValueType H → H
  | .ref heap _ => heap
  | _ => default

/-- Method `ValueType::is_nullable()`: a nullable reference type. -/
def ValueType.is_nullable {H : Type} : ValueType H → Bool
  | .ref _ nullable => nullable
  | _ => false

/-- Method `ValueType::is_non_nullable()`: a non-nullable reference type.  It is not the
negation of `is_nullable`: both are false on the sentinels. -/
def ValueType.is_non_nullable {H : Type} : ValueType H → Bool
  | .ref _ nullable => !nullable
  | _ => false

/-- The module-dependent queries of `wasm-subtyping.h` that the reducer calls with `module_`.
They are declared outside the sources and are taken as a parameter. -/
structure WasmModule (H : Type) where
  IsHeapSubtypeOf : H → H → Bool
  HeapTypesUnrelated : H → H → Bool
  IsImplicitInternalization : ValueType H → ValueType H → Bool
  Intersection : ValueType H → ValueType H → ValueType H
  ToNullSentinel : ValueType H → ValueType H

/-- An index into a graph; `OpIndex::Invalid()` is the distinguished invalid index. -/
inductive OpIndex where
  | Invalid
  | Valid (id : Nat)
  deriving DecidableEq, Repr

/-- Method `OpIndex::valid()`. -/
def OpIndex.valid : OpIndex → Bool
  | .Invalid => false
  | .Valid _ => true

/-- Trap reasons carried by trapping operations (`TrapId`). -/
inductive TrapId where
  | kTrapIllegalCast
  | kTrapNullDereference
  | kTrapUnreachable
  deriving DecidableEq, Repr

/-- The null-check mode of an access (`CheckForNull`). -/
inductive CheckForNull where
  | kWithoutNullCheck
  | kWithNullCheck
  deriving DecidableEq, Repr

/-- The configuration of a cast or a check: declared source type and target type. -/
structure WasmTypeCheckConfig (H : Type) where
  from_ : ValueType H
  to_ : ValueType H
  deriving DecidableEq, Repr

/-- Input-graph operation `WasmTypeCastOp`: operands `object()` and the optional `rtt()`. -/
structure WasmTypeCastOp (H : Type) where
  object : OpIndex
  rtt : OpIndex
  config : WasmTypeCheckConfig H
  deriving DecidableEq, Repr

/-- Input-graph operation `WasmTypeCheckOp`. -/
structure WasmTypeCheckOp (H : Type) where
  object : OpIndex
  rtt : OpIndex
  config : WasmTypeCheckConfig H
  deriving DecidableEq, Repr

/-- Input-graph operation `AssertNotNullOp`. -/
structure AssertNotNullOp (H : Type) where
  object : OpIndex
  type : ValueType H
  trap_id : TrapId
  deriving DecidableEq, Repr

/-- Input-graph operation `IsNullOp`. -/
structure IsNullOp (H : Type) where
  object : OpIndex
  type : ValueType H
  deriving DecidableEq, Repr

/-- Input-graph operation `StructGetOp`; `type` names the struct type descriptor. -/
structure StructGetOp where
  object : OpIndex
  type : Nat
  field_index : Nat
  is_signed : Bool
  null_check : CheckForNull
  deriving DecidableEq, Repr

/-- Input-graph operation `StructSetOp`. -/
structure StructSetOp where
  object : OpIndex
  value : OpIndex
  type : Nat
  field_index : Nat
  null_check : CheckForNull
  deriving DecidableEq, Repr

/-- Input-graph operation `ArrayLengthOp`. -/
structure ArrayLengthOp where
  array : OpIndex
  null_check : CheckForNull
  deriving DecidableEq, Repr

/-- The operations of the output graph that the reducer can emit or inspect.  `Other` stands
for every operation kind the reducer does not treat. -/
inductive Operation (H : Type) where
  | Word32Constant (value : Nat)
  | Word32Equal (left right : OpIndex)
  | IsNull (object : OpIndex) (type : ValueType H)
  | AssertNotNull (object : OpIndex) (type : ValueType H) (trap_id : TrapId)
  | TrapIfNot (condition : OpIndex) (frame_state : OpIndex) (trap_id : TrapId)
  | WasmTypeCast (object rtt : OpIndex) (config : WasmTypeCheckConfig H)
  | WasmTypeCheck (object rtt : OpIndex) (config : WasmTypeCheckConfig H)
  | StructGet (object : OpIndex) (type field_index : Nat) (is_signed : Bool)
      (null_check : CheckForNull)
  | StructSet (object value : OpIndex) (type field_index : Nat) (null_check : CheckForNull)
  | ArrayLength (array : OpIndex) (null_check : CheckForNull)
  | ExternConvertAny (object : OpIndex)
  | AnyConvertExtern (object : OpIndex)
  | Other (tag : Nat)
  deriving DecidableEq, Repr

/-- The output graph under construction: its operations in emission order. -/
abbrev Graph (H : Type) := List (Operation H)

/-- A fatal invariant violation, named after the `DCHECK` it belongs to.  The reductions
raise `InputTypeMissing` only. -/
inductive Fatal where
  | InputTypeMissing
  | IntersectionIsBottom
  deriving DecidableEq, Repr

/-- A reduction step: it reads the output graph built so far, and either fails fatally or
returns a value together with the extended output graph. -/
abbrev Asm (H : Type) (α : Type) := Graph H → Except Fatal (α × Graph H)

/-- Sequencing of reduction steps. -/
def Asm.bind {H α β : Type} (m : Asm H α) (f : α → Asm H β) : Asm H β :=
  fun g => match m g with
    | .error e => .error e
    | .ok (a, g1) => f a g1

/-- A step that returns a value and emits nothing. -/
def Asm.pure {H α : Type} (a : α) : Asm H α := fun g => .ok (a, g)

/-- A step that fails with a fatal invariant violation. -/
def Asm.fail {H α : Type} (e : Fatal) : Asm H α := fun _ => .error e

instance {H : Type} : Monad (Asm H) where
  pure := Asm.pure
  bind := Asm.bind

/-- Emission of one operation at the end of the output graph; returns its index. -/
def Emit {H : Type} (op : Operation H) : Asm H OpIndex :=
  fun g => .ok (OpIndex.Valid g.length, g ++ [op])

/-- The analyzer as seen by the reducer: the map from an operation of the input graph to
the input type inferred for it (`input_type_map_`). -/
structure WasmGCTypeAnalyzer (H : Type) where
  input_type_map_ : OpIndex → Option (ValueType H)

/-- `WasmGCTypeAnalyzer::GetInputType`: the recorded type; the `DCHECK_NE(iter, end)` fails
for an operation without an entry. -/
def WasmGCTypeAnalyzer.GetInputType {H : Type} (a : WasmGCTypeAnalyzer H) (op : OpIndex) :
    Except Fatal (ValueType H) :=
  match a.input_type_map_ op with
  | none => .error Fatal.InputTypeMissing
  | some type => .ok type

/-- The next reducer of the stack (`Next`): its default reductions of input-graph
operations.  The stack below this reducer is not part of the sources. -/
structure NextReducer (H : Type) where
  ReduceInputGraphWasmTypeCast : OpIndex → WasmTypeCastOp H → Asm H OpIndex
  ReduceInputGraphWasmTypeCheck : OpIndex → WasmTypeCheckOp H → Asm H OpIndex
  ReduceInputGraphAssertNotNull : OpIndex → AssertNotNullOp H → Asm H OpIndex
  ReduceInputGraphIsNull : OpIndex → IsNullOp H → Asm H OpIndex
  ReduceInputGraphStructGet : OpIndex → StructGetOp → Asm H OpIndex
  ReduceInputGraphStructSet : OpIndex → StructSetOp → Asm H OpIndex
  ReduceInputGraphArrayLength : OpIndex → ArrayLengthOp → Asm H OpIndex
  ReduceAnyConvertExtern : OpIndex → Asm H OpIndex
  ReduceExternConvertAny : OpIndex → Asm H OpIndex

/-- The state of a `WasmGCTypeReducer` that its reductions read: the module, the analyzer,
the mapping from input-graph to output-graph indices and the rest of the stack. -/
structure WasmGCTypeReducer (H : Type) where
  module_ : WasmModule H
  analyzer_ : WasmGCTypeAnalyzer H
  op_mapping : OpIndex → OpIndex
  Next : NextReducer H

/-- Assembler helper `MapToNewGraph`: the output-graph image of an input-graph index. -/
def WasmGCTypeReducer.MapToNewGraph {H : Type} (r : WasmGCTypeReducer H) (old_index : OpIndex) :
    OpIndex :=
  r.op_mapping old_index

/-- Assembler helper `MapToNewGraphIfValid`: an invalid (absent) operand stays invalid. -/
def WasmGCTypeReducer.MapToNewGraphIfValid {H : Type} (r : WasmGCTypeReducer H)
    (old_index : OpIndex) : OpIndex :=
  if old_index.valid then r.MapToNewGraph old_index else OpIndex.Invalid

/-- Lifts the analyzer query into a reduction step. -/
def liftExcept {H α : Type} (x : Except Fatal α) : Asm H α :=
  fun g => match x with
    | .error e => .error e
    | .ok a => .ok (a, g)

/-! ## The reducer -/

/-- The reduction `REDUCE_INPUT_GRAPH(WasmTypeCast)`. -/
def WasmGCTypeReducer.ReduceInputGraphWasmTypeCast {H : Type} [DecidableEq H] [Inhabited H]
    (r : WasmGCTypeReducer H) (op_idx : OpIndex) (cast_op : WasmTypeCastOp H) :
    Asm H OpIndex := do
  let type ← liftExcept (r.analyzer_.GetInputType op_idx)
  if type ≠ ValueType.top ∧ type ≠ kWasmBottom then
    let to_nullable := cast_op.config.to_.is_nullable
    if r.module_.IsHeapSubtypeOf type.heap_type cast_op.config.to_.heap_type then
      if to_nullable || type.is_non_nullable then
        return r.MapToNewGraph cast_op.object
      else
        Emit (Operation.AssertNotNull (r.MapToNewGraph cast_op.object) type
          TrapId.kTrapIllegalCast)
    else if r.module_.HeapTypesUnrelated type.heap_type cast_op.config.to_.heap_type &&
        !r.module_.IsImplicitInternalization type cast_op.config.to_ then
      let non_trapping_condition ←
        if type.is_nullable && to_nullable then
          Emit (Operation.IsNull (r.MapToNewGraph cast_op.object) type)
        else
          Emit (Operation.Word32Constant 0)
      let _ ← Emit (Operation.TrapIfNot non_trapping_condition OpIndex.Invalid
        TrapId.kTrapIllegalCast)
      return r.MapToNewGraph cast_op.object
    else
      let from_type := r.module_.Intersection type cast_op.config.from_
      let config : WasmTypeCheckConfig H := { from_ := from_type, to_ := cast_op.config.to_ }
      Emit (Operation.WasmTypeCast (r.MapToNewGraph cast_op.object)
        (r.MapToNewGraphIfValid cast_op.rtt) config)
  else
    r.Next.ReduceInputGraphWasmTypeCast op_idx cast_op

/-- The reduction `REDUCE_INPUT_GRAPH(WasmTypeCheck)`.  The literal `0` passed to
`Word32Equal` is materialised as a `Word32Constant` before the comparison is emitted. -/
def WasmGCTypeReducer.ReduceInputGraphWasmTypeCheck {H : Type} [DecidableEq H] [Inhabited H]
    (r : WasmGCTypeReducer H) (op_idx : OpIndex) (type_check : WasmTypeCheckOp H) :
    Asm H OpIndex := do
  let type ← liftExcept (r.analyzer_.GetInputType op_idx)
  if type ≠ ValueType.top ∧ type ≠ kWasmBottom then
    let to_nullable := type_check.config.to_.is_nullable
    if r.module_.IsHeapSubtypeOf type.heap_type type_check.config.to_.heap_type then
      if to_nullable || type.is_non_nullable then
        Emit (Operation.Word32Constant 1)
      else
        let is_null ← Emit (Operation.IsNull (r.MapToNewGraph type_check.object) type)
        let zero ← Emit (Operation.Word32Constant 0)
        Emit (Operation.Word32Equal is_null zero)
    else if r.module_.HeapTypesUnrelated type.heap_type type_check.config.to_.heap_type then
      if to_nullable && type.is_nullable then
        Emit (Operation.IsNull (r.MapToNewGraph type_check.object) type)
      else
        Emit (Operation.Word32Constant 0)
    else
      let from_type := r.module_.Intersection type type_check.config.from_
      let config : WasmTypeCheckConfig H := { from_ := from_type, to_ := type_check.config.to_ }
      Emit (Operation.WasmTypeCheck (r.MapToNewGraph type_check.object)
        (r.MapToNewGraphIfValid type_check.rtt) config)
  else
    r.Next.ReduceInputGraphWasmTypeCheck op_idx type_check

/-- The reduction `REDUCE_INPUT_GRAPH(AssertNotNull)`. -/
def WasmGCTypeReducer.ReduceInputGraphAssertNotNull {H : Type}
    (r : WasmGCTypeReducer H) (op_idx : OpIndex) (assert_not_null : AssertNotNullOp H) :
    Asm H OpIndex := do
  let type ← liftExcept (r.analyzer_.GetInputType op_idx)
  if type.is_non_nullable then
    return r.MapToNewGraph assert_not_null.object
  else
    r.Next.ReduceInputGraphAssertNotNull op_idx assert_not_null

/-- The reduction `REDUCE_INPUT_GRAPH(IsNull)`. -/
def WasmGCTypeReducer.ReduceInputGraphIsNull {H : Type} [DecidableEq H]
    (r : WasmGCTypeReducer H) (op_idx : OpIndex) (is_null : IsNullOp H) :
    Asm H OpIndex := do
  let type ← liftExcept (r.analyzer_.GetInputType op_idx)
  if type.is_non_nullable then
    Emit (Operation.Word32Constant 0)
  else if type ≠ ValueType.top ∧ type ≠ kWasmBottom ∧
      r.module_.ToNullSentinel type = type then
    Emit (Operation.Word32Constant 1)
  else
    r.Next.ReduceInputGraphIsNull op_idx is_null

/-- The reduction `REDUCE_INPUT_GRAPH(StructGet)`: removes the null check if the object is
known to be not null. -/
def WasmGCTypeReducer.ReduceInputGraphStructGet {H : Type}
    (r : WasmGCTypeReducer H) (op_idx : OpIndex) (struct_get : StructGetOp) :
    Asm H OpIndex := do
  let type ← liftExcept (r.analyzer_.GetInputType op_idx)
  if struct_get.null_check = CheckForNull.kWithNullCheck ∧ type.is_non_nullable = true then
    Emit (Operation.StructGet (r.MapToNewGraph struct_get.object) struct_get.type
      struct_get.field_index struct_get.is_signed CheckForNull.kWithoutNullCheck)
  else
    r.Next.ReduceInputGraphStructGet op_idx struct_get

/-- The reduction `REDUCE_INPUT_GRAPH(StructSet)`: removes the null check if the object is
known to be not null; the emitted operation has no value and the invalid index is
returned. -/
def WasmGCTypeReducer.ReduceInputGraphStructSet {H : Type}
    (r : WasmGCTypeReducer H) (op_idx : OpIndex) (struct_set : StructSetOp) :
    Asm H OpIndex := do
  let type ← liftExcept (r.analyzer_.GetInputType op_idx)
  if struct_set.null_check = CheckForNull.kWithNullCheck ∧ type.is_non_nullable = true then
    let _ ← Emit (Operation.StructSet (r.MapToNewGraph struct_set.object)
      (r.MapToNewGraph struct_set.value) struct_set.type struct_set.field_index
      CheckForNull.kWithoutNullCheck)
    return OpIndex.Invalid
  else
    r.Next.ReduceInputGraphStructSet op_idx struct_set

/-- The reduction `REDUCE_INPUT_GRAPH(ArrayLength)`: removes the null check if the array is
known to be not null. -/
def WasmGCTypeReducer.ReduceInputGraphArrayLength {H : Type}
    (r : WasmGCTypeReducer H) (op_idx : OpIndex) (array_length : ArrayLengthOp) :
    Asm H OpIndex := do
  let type ← liftExcept (r.analyzer_.GetInputType op_idx)
  if array_length.null_check = CheckForNull.kWithNullCheck ∧ type.is_non_nullable = true then
    Emit (Operation.ArrayLength (r.MapToNewGraph array_length.array)
      CheckForNull.kWithoutNullCheck)
  else
    r.Next.ReduceInputGraphArrayLength op_idx array_length

/-- The operation of the output graph at an index (`output_graph().Get(object)`), if the
index is valid and inside the graph. -/
def Graph.Get {H : Type} (g : Graph H) : OpIndex → Option (Operation H)
  | .Invalid => none
  | .Valid id => g[id]?

/-- The reduction `REDUCE(AnyConvertExtern)`: on an object of the output graph that is
defined by `ExternConvertAny(x)` it returns `x`, as
`any.convert_extern(extern.convert_any(x)) == x`. -/
def WasmGCTypeReducer.ReduceAnyConvertExtern {H : Type}
    (r : WasmGCTypeReducer H) (object : OpIndex) : Asm H OpIndex :=
  fun g =>
    if object.valid then
      match Graph.Get g object with
      | some (Operation.ExternConvertAny externalized) => .ok (externalized, g)
      | _ => r.Next.ReduceAnyConvertExtern object g
    else
      r.Next.ReduceAnyConvertExtern object g

/-- The reduction of `ExternConvertAny`: the reducer does not define it, so the one of
`Next` is inherited. -/
def WasmGCTypeReducer.ReduceExternConvertAny {H : Type}
    (r : WasmGCTypeReducer H) (object : OpIndex) : Asm H OpIndex :=
  r.Next.ReduceExternConvertAny object

/-- Whether an operation of the output graph is a `WasmTypeCast` or a `WasmTypeCheck`. -/
def Operation.IsTypeCastOrCheck {H : Type} : Operation H → Bool
  | .WasmTypeCast _ _ _ => true
  | .WasmTypeCheck _ _ _ => true
  | _ => false

/-! ## The graph visitor -/

/-- The operations of the input graph that the reducer treats. -/
inductive InputOperation (H : Type) where
  | WasmTypeCast (op : WasmTypeCastOp H)
  | WasmTypeCheck (op : WasmTypeCheckOp H)
  | AssertNotNull (op : AssertNotNullOp H)
  | IsNull (op : IsNullOp H)
  | StructGet (op : StructGetOp)
  | StructSet (op : StructSetOp)
  | ArrayLength (op : ArrayLengthOp)
  deriving DecidableEq, Repr

/-- Dispatch of an input-graph operation to its `REDUCE_INPUT_GRAPH` reduction. -/
def WasmGCTypeReducer.ReduceInputGraphOperation {H : Type} [DecidableEq H] [Inhabited H]
    (r : WasmGCTypeReducer H) (op_idx : OpIndex) : InputOperation H → Asm H OpIndex
  | .WasmTypeCast op => r.ReduceInputGraphWasmTypeCast op_idx op
  | .WasmTypeCheck op => r.ReduceInputGraphWasmTypeCheck op_idx op
  | .AssertNotNull op => r.ReduceInputGraphAssertNotNull op_idx op
  | .IsNull op => r.ReduceInputGraphIsNull op_idx op
  | .StructGet op => r.ReduceInputGraphStructGet op_idx op
  | .StructSet op => r.ReduceInputGraphStructSet op_idx op
  | .ArrayLength op => r.ReduceInputGraphArrayLength op_idx op

/-- Modelled from the spec: the graph visitor that drives the reducer is not among the
sources.  Each original operation is reduced in order, and the index returned by its
reduction becomes its image, so that the uses of an eliminated operation are redirected to
the operation that computes the same value.  Returns the final mapping. -/
def WasmGCTypeReducer.VisitOperations {H : Type} [DecidableEq H] [Inhabited H]
    (r : WasmGCTypeReducer H) : List (OpIndex × InputOperation H) →
    Asm H (OpIndex → OpIndex)
  | [] => Asm.pure r.op_mapping
  | (op_idx, op) :: rest =>
    Asm.bind (r.ReduceInputGraphOperation op_idx op) fun new_index =>
      WasmGCTypeReducer.VisitOperations
        { r with op_mapping := Function.update r.op_mapping op_idx new_index } rest

/-! ## Runtime model of the emitted operations -/

/-- Modelled from the spec: a runtime value is null or an object of some heap type; `word32`
is a 0/1-valued or other 32-bit integer result and `void` the result of an operation that
produces no value. -/
inductive Value (H : Type) where
  | null
  | object (heap : H)
  | word32 (n : Nat)
  | void
  deriving DecidableEq, Repr

/-- Modelled from the spec: a value conforms to a value type iff it is null and the type is
nullable, or it is an object whose heap type is a heap subtype of the type's heap type. -/
def conforms {H : Type} [Inhabited H] (m : WasmModule H) (v : Value H) (t : ValueType H) :
    Bool :=
  match v with
  | .null => t.is_nullable
  | .object heap => m.IsHeapSubtypeOf heap t.heap_type
  | _ => false

/-- Modelled from the spec: the assumptions on the subtyping queries: heap subtyping is
transitive, and no heap type is a subtype of both of two unrelated heap types. -/
def WasmModule.Sound {H : Type} (m : WasmModule H) : Prop :=
  (∀ a b c : H, m.IsHeapSubtypeOf a b = true → m.IsHeapSubtypeOf b c = true →
      m.IsHeapSubtypeOf a c = true) ∧
  (∀ a b : H, m.HeapTypesUnrelated a b = true →
      ∀ h : H, ¬ (m.IsHeapSubtypeOf h a = true ∧ m.IsHeapSubtypeOf h b = true))

/-- The ways in which running an operation stops the execution: a trap with its reason, or
an operation whose operands have no value of the expected sort. -/
inductive Fault where
  | Trap (id : TrapId)
  | Stuck
  deriving DecidableEq, Repr

/-- The value computed by the operation at an index, given the values computed so far. -/
def valueAt {H : Type} (vals : List (Value H)) : OpIndex → Option (Value H)
  | .Invalid => none
  | .Valid id => vals[id]?

/-- Modelled from the spec: the runtime meaning of one operation.  `IsNull` is 1 on null and
0 on an object, `AssertNotNull` traps on null and otherwise passes its operand on,
`TrapIfNot` traps iff its condition is 0, a cast traps iff the value does not conform to the
target and otherwise passes the value on, and a check is 1 iff the value conforms. -/
def evalOp {H : Type} [Inhabited H] (m : WasmModule H) (vals : List (Value H)) :
    Operation H → Except Fault (Value H)
  | .Word32Constant value => .ok (.word32 value)
  | .Word32Equal left right =>
    match valueAt vals left, valueAt vals right with
    | some (.word32 a), some (.word32 b) => .ok (.word32 (if a = b then 1 else 0))
    | _, _ => .error Fault.Stuck
  | .IsNull object _ =>
    match valueAt vals object with
    | some .null => .ok (.word32 1)
    | some (.object _) => .ok (.word32 0)
    | _ => .error Fault.Stuck
  | .AssertNotNull object _ trap_id =>
    match valueAt vals object with
    | some .null => .error (Fault.Trap trap_id)
    | some (.object heap) => .ok (.object heap)
    | _ => .error Fault.Stuck
  | .TrapIfNot condition _ trap_id =>
    match valueAt vals condition with
    | some (.word32 n) => if n = 0 then .error (Fault.Trap trap_id) else .ok .void
    | _ => .error Fault.Stuck
  | .WasmTypeCast object _ config =>
    match valueAt vals object with
    | some v => if conforms m v config.to_ then .ok v
        else .error (Fault.Trap TrapId.kTrapIllegalCast)
    | none => .error Fault.Stuck
  | .WasmTypeCheck object _ config =>
    match valueAt vals object with
    | some v => .ok (.word32 (if conforms m v config.to_ then 1 else 0))
    | none => .error Fault.Stuck
  | _ => .error Fault.Stuck

/-- Runs operations in emission order; the value of each is appended to the values computed
so far, so that the value of the operation at index `i` is at position `i`. -/
def run {H : Type} [Inhabited H] (m : WasmModule H) :
    List (Operation H) → List (Value H) → Except Fault (List (Value H))
  | [], vals => .ok vals
  | op :: rest, vals =>
    match evalOp m vals op with
    | .error e => .error e
    | .ok v => run m rest (vals ++ [v])

/-! ## A hand-built module for concrete evaluation -/

/-- The heap types of a small module: `animal` below `any`, `dog` and `cat` below `animal`,
`kitten` below `cat`; `extern` is the top of a hierarchy of its own; `none` and `noextern`
are the heap types of the null sentinels and are related to no other heap type. -/
inductive Zoo where
  | any
  | externref
  | animal
  | dog
  | cat
  | kitten
  | none
  | noexternref
  deriving DecidableEq, Repr, Fintype

instance : Inhabited Zoo := ⟨Zoo.any⟩

/-- The declared supertype of a heap type of the small module, if it has one. -/
def Zoo.super : Zoo → Option Zoo
  | .animal => some .any
  | .dog => some .animal
  | .cat => some .animal
  | .kitten => some .cat
  | _ => Option.none

/-- Heap subtyping of the small module: the reflexive and transitive closure of `super`
(the hierarchy has depth three). -/
def Zoo.sub (a b : Zoo) : Bool :=
  a = b || a.super = some b || (a.super.bind Zoo.super) = some b ||
    ((a.super.bind Zoo.super).bind Zoo.super) = some b

/-- The null sentinel of a value type of the small module: nullable `noextern` in the
`extern` hierarchy and nullable `none` otherwise. -/
def Zoo.ToNullSentinel : ValueType Zoo → ValueType Zoo
  | .ref .externref _ => .ref .noexternref true
  | .ref .noexternref _ => .ref .noexternref true
  | .ref _ _ => .ref .none true
  | other => other

/-- The small module: two heap types are unrelated when neither is a subtype of the other,
an `extern` value is implicitly internalized to the `any` hierarchy, the intersection of
two reference types is the narrower one, their common null sentinel when the heap types
are unrelated and both types nullable, and bottom otherwise. -/
def zooModule : WasmModule Zoo where
  IsHeapSubtypeOf := Zoo.sub
  HeapTypesUnrelated := fun a b => !Zoo.sub a b && !Zoo.sub b a
  IsImplicitInternalization := fun from_ to_ =>
    match from_, to_ with
    | .ref .externref _, .ref heap _ => Zoo.sub heap .any
    | _, _ => false
  Intersection := fun a b =>
    match a, b with
    | .ref h1 n1, .ref h2 n2 =>
      if Zoo.sub h1 h2 then .ref h1 (n1 && n2)
      else if Zoo.sub h2 h1 then .ref h2 (n1 && n2)
      else if (n1 && n2) && Zoo.ToNullSentinel a = Zoo.ToNullSentinel b then
        Zoo.ToNullSentinel a
      else .bottom
    | _, _ => .bottom
  ToNullSentinel := Zoo.ToNullSentinel

/-- A default reduction for the small module: every operation is emitted unchanged on the
images of its operands. -/
def zooNext (op_mapping : OpIndex → OpIndex) : NextReducer Zoo where
  ReduceInputGraphWasmTypeCast := fun _ op =>
    Emit (Operation.WasmTypeCast (op_mapping op.object) (op_mapping op.rtt) op.config)
  ReduceInputGraphWasmTypeCheck := fun _ op =>
    Emit (Operation.WasmTypeCheck (op_mapping op.object) (op_mapping op.rtt) op.config)
  ReduceInputGraphAssertNotNull := fun _ op =>
    Emit (Operation.AssertNotNull (op_mapping op.object) op.type op.trap_id)
  ReduceInputGraphIsNull := fun _ op =>
    Emit (Operation.IsNull (op_mapping op.object) op.type)
  ReduceInputGraphStructGet := fun _ op =>
    Emit (Operation.StructGet (op_mapping op.object) op.type op.field_index op.is_signed
      op.null_check)
  ReduceInputGraphStructSet := fun _ op =>
    Emit (Operation.StructSet (op_mapping op.object) (op_mapping op.value) op.type
      op.field_index op.null_check)
  ReduceInputGraphArrayLength := fun _ op =>
    Emit (Operation.ArrayLength (op_mapping op.array) op.null_check)
  ReduceAnyConvertExtern := fun object => Emit (Operation.AnyConvertExtern object)
  ReduceExternConvertAny := fun object => Emit (Operation.ExternConvertAny object)

/-- A reducer over the small module in which the analyzer recorded the type `type` for
every operation and an input-graph index is mapped to the same position of the output. -/
def zooReducer (type : ValueType Zoo) : WasmGCTypeReducer Zoo where
  module_ := zooModule
  analyzer_ := { input_type_map_ := fun _ => some type }
  op_mapping := id
  Next := zooNext id

/-- A cast of the operation at index 0 with the given declared source and target. -/
def zooCast (from_ to_ : ValueType Zoo) : WasmTypeCastOp Zoo where
  object := OpIndex.Valid 0
  rtt := OpIndex.Invalid
  config := { from_ := from_, to_ := to_ }

/-- A check of the operation at index 0 with the given declared source and target. -/
def zooCheck (from_ to_ : ValueType Zoo) : WasmTypeCheckOp Zoo where
  object := OpIndex.Valid 0
  rtt := OpIndex.Invalid
  config := { from_ := from_, to_ := to_ }

/-- A null assertion on the operation at index 0. -/
def zooAssertNotNull : AssertNotNullOp Zoo where
  object := OpIndex.Valid 0
  type := .ref .any true
  trap_id := TrapId.kTrapNullDereference

/-- An output graph holding one operation, the image of the operand of the examples. -/
def zooGraph : Graph Zoo := [Operation.Other 0]

/-- A null test of the operation at index 0. -/
def zooIsNull : IsNullOp Zoo where
  object := OpIndex.Valid 0
  type := .ref .any true

/-- A read of field 0 of the operation at index 0, sign-extending, with the given null-check
mode. -/
def zooStructGet (null_check : CheckForNull) : StructGetOp where
  object := OpIndex.Valid 0
  type := 7
  field_index := 0
  is_signed := true
  null_check := null_check

/-- A write of the operation at index 1 to field 2 of the operation at index 0. -/
def zooStructSet (null_check : CheckForNull) : StructSetOp where
  object := OpIndex.Valid 0
  value := OpIndex.Valid 1
  type := 7
  field_index := 2
  null_check := null_check

/-- A length query on the operation at index 0. -/
def zooArrayLength (null_check : CheckForNull) : ArrayLengthOp where
  array := OpIndex.Valid 0
  null_check := null_check

/-- The reducer of the scenario "cast elimination after test": the parameter `P` is the
input operation 0 and its image is the output operation 0; the analyzer recorded nullable
`any` for the check at index 1, and non-null `dog` for the cast at index 2 and for the
struct read at index 3. -/
def zooScenarioReducer : WasmGCTypeReducer Zoo where
  module_ := zooModule
  analyzer_ :=
    { input_type_map_ := fun op =>
        if op = OpIndex.Valid 1 then some (.ref .any true)
        else if op = OpIndex.Valid 2 then some (.ref .dog false)
        else if op = OpIndex.Valid 3 then some (.ref .dog false)
        else none }
  op_mapping := fun op => if op = OpIndex.Valid 0 then OpIndex.Valid 0 else OpIndex.Invalid
  Next := zooNext id

/-- The operations of the scenario: the check of `P` against `dog`, the cast of `P` to
`dog`, and the checked read of field 0 of the result of the cast. -/
def zooScenario : List (OpIndex × InputOperation Zoo) :=
  [(OpIndex.Valid 1, .WasmTypeCheck (zooCheck (.ref .any true) (.ref .dog false))),
    (OpIndex.Valid 2, .WasmTypeCast (zooCast (.ref .any true) (.ref .dog false))),
    (OpIndex.Valid 3, .StructGet
      { object := OpIndex.Valid 2, type := 7, field_index := 0, is_signed := true,
        null_check := CheckForNull.kWithNullCheck })]

end WasmGC

/-!
# Runtime functions

Embedding of `src/runtime/runtime.cc`: the classification of runtime functions by their
id and the lookup of a runtime function by its name.
-/

namespace Runtime

/-- The ids of the runtime functions (`Runtime::FunctionId`).  The enumeration is generated
from the intrinsic lists of `runtime.h`, which is not among the sources: the ids the
classifications name are constructors, and `other` stands for every other id. -/
inductive FunctionId where
  | kInlineAsyncFunctionReject
  | kInlineAsyncFunctionResolve
  | kCreatePrivateAccessors
  | kCopyDataProperties
  | kCreateDataProperty
  | kCreatePrivateNameSymbol
  | kCreatePrivateBrandSymbol
  | kLoadPrivateGetter
  | kLoadPrivateSetter
  | kReThrow
  | kReThrowWithMessage
  | kThrow
  | kThrowApplyNonFunction
  | kThrowCalledNonCallable
  | kThrowConstAssignError
  | kThrowConstructorNonCallableError
  | kThrowConstructedNonConstructable
  | kThrowConstructorReturnedNonObject
  | kThrowInvalidStringLength
  | kThrowInvalidTypedArrayAlignment
  | kThrowIteratorError
  | kThrowIteratorResultNotAnObject
  | kThrowNotConstructor
  | kThrowRangeError
  | kThrowReferenceError
  | kThrowAccessedUninitializedVariable
  | kThrowStackOverflow
  | kThrowStaticPrototypeError
  | kThrowSuperAlreadyCalledError
  | kThrowSuperNotCalled
  | kThrowSymbolAsyncIteratorInvalid
  | kThrowSymbolIteratorInvalid
  | kThrowThrowMethodMissing
  | kThrowTypeError
  | kThrowUnsupportedSuperError
  | kTerminateExecution
  | kThrowWasmError
  | kThrowWasmStackOverflow
  | other (id : Nat)
  deriving DecidableEq, Repr

/-- The classification `Runtime::NeedsExactContext`.  The two WebAssembly cases are compiled
only if `V8_ENABLE_WEBASSEMBLY` is set. -/
def NeedsExactContext (V8_ENABLE_WEBASSEMBLY : Bool) : FunctionId → Bool
  | .kInlineAsyncFunctionReject => false
  | .kInlineAsyncFunctionResolve => false
  | .kCreatePrivateAccessors => false
  | .kCopyDataProperties => false
  | .kCreateDataProperty => false
  | .kCreatePrivateNameSymbol => false
  | .kCreatePrivateBrandSymbol => false
  | .kLoadPrivateGetter => false
  | .kLoadPrivateSetter => false
  | .kReThrow => false
  | .kReThrowWithMessage => false
  | .kThrow => false
  | .kThrowApplyNonFunction => false
  | .kThrowCalledNonCallable => false
  | .kThrowConstAssignError => false
  | .kThrowConstructorNonCallableError => false
  | .kThrowConstructedNonConstructable => false
  | .kThrowConstructorReturnedNonObject => false
  | .kThrowInvalidStringLength => false
  | .kThrowInvalidTypedArrayAlignment => false
  | .kThrowIteratorError => false
  | .kThrowIteratorResultNotAnObject => false
  | .kThrowNotConstructor => false
  | .kThrowRangeError => false
  | .kThrowReferenceError => false
  | .kThrowAccessedUninitializedVariable => false
  | .kThrowStackOverflow => false
  | .kThrowStaticPrototypeError => false
  | .kThrowSuperAlreadyCalledError => false
  | .kThrowSuperNotCalled => false
  | .kThrowSymbolAsyncIteratorInvalid => false
  | .kThrowSymbolIteratorInvalid => false
  | .kThrowThrowMethodMissing => false
  | .kThrowTypeError => false
  | .kThrowUnsupportedSuperError => false
  | .kTerminateExecution => false
  | .kThrowWasmError => if V8_ENABLE_WEBASSEMBLY then false else true
  | .kThrowWasmStackOverflow => if V8_ENABLE_WEBASSEMBLY then false else true
  | _ => true

/-- The classification `Runtime::IsNonReturning`.  The two WebAssembly cases are compiled only
if `V8_ENABLE_WEBASSEMBLY` is set. -/
def IsNonReturning (V8_ENABLE_WEBASSEMBLY : Bool) : FunctionId → Bool
  | .kThrowUnsupportedSuperError => true
  | .kThrowConstructorNonCallableError => true
  | .kThrowStaticPrototypeError => true
  | .kThrowSuperAlreadyCalledError => true
  | .kThrowSuperNotCalled => true
  | .kReThrow => true
  | .kReThrowWithMessage => true
  | .kThrow => true
  | .kThrowApplyNonFunction => true
  | .kThrowCalledNonCallable => true
  | .kThrowConstructedNonConstructable => true
  | .kThrowConstructorReturnedNonObject => true
  | .kThrowInvalidStringLength => true
  | .kThrowInvalidTypedArrayAlignment => true
  | .kThrowIteratorError => true
  | .kThrowIteratorResultNotAnObject => true
  | .kThrowThrowMethodMissing => true
  | .kThrowSymbolIteratorInvalid => true
  | .kThrowNotConstructor => true
  | .kThrowRangeError => true
  | .kThrowReferenceError => true
  | .kThrowAccessedUninitializedVariable => true
  | .kThrowStackOverflow => true
  | .kThrowSymbolAsyncIteratorInvalid => true
  | .kThrowTypeError => true
  | .kThrowConstAssignError => true
  | .kTerminateExecution => true
  | .kThrowWasmError => if V8_ENABLE_WEBASSEMBLY then true else false
  | .kThrowWasmStackOverflow => if V8_ENABLE_WEBASSEMBLY then true else false
  | _ => false

/-- The kind of an intrinsic (`Runtime::IntrinsicType`). -/
inductive IntrinsicType where
  | RUNTIME
  | INLINE
  deriving DecidableEq, Repr

/-- An entry of the table of runtime functions (`Runtime::Function`).  A `name` is the
array of bytes of a C string literal, without its terminator. -/
structure Function where
  function_id : FunctionId
  intrinsic_type : IntrinsicType
  name : List Nat
  entry : Nat
  nargs : Int
  result_size : Nat
  deriving DecidableEq, Repr

/-- One line of the intrinsic lists `FOR_EACH_INTRINSIC` and `FOR_EACH_INLINE_INTRINSIC` of
`runtime.h`, which is not among the sources: the bytes of the identifier `name`, the id and
the entry address that the token pastes `Runtime::k##name` (or `Runtime::kInline##name`)
and `Runtime_##name` denote, and the two numbers of the line. -/
structure Intrinsic where
  name : List Nat
  function_id : FunctionId
  entry : Nat
  number_of_args : Int
  result_size : Nat
  deriving DecidableEq, Repr

/-- The table entry that the macro `F` builds for a line of `FOR_EACH_INTRINSIC`: a
`RUNTIME` function named `#name`. -/
def F (line : Intrinsic) : Function where
  function_id := line.function_id
  intrinsic_type := IntrinsicType.RUNTIME
  name := line.name
  entry := line.entry
  nargs := line.number_of_args
  result_size := line.result_size

/-- The table entry that the macro `I` builds for a line of `FOR_EACH_INLINE_INTRINSIC`: an
`INLINE` function named `"_" #name` (95 is the byte of the underscore). -/
def I (line : Intrinsic) : Function where
  function_id := line.function_id
  intrinsic_type := IntrinsicType.INLINE
  name := 95 :: line.name
  entry := line.entry
  nargs := line.number_of_args
  result_size := line.result_size

/-- The table `kIntrinsicFunctions`: `FOR_EACH_INTRINSIC(F) FOR_EACH_INLINE_INTRINSIC(I)`. -/
def kIntrinsicFunctions (FOR_EACH_INTRINSIC FOR_EACH_INLINE_INTRINSIC : List Intrinsic) :
    List Function :=
  FOR_EACH_INTRINSIC.map F ++ FOR_EACH_INLINE_INTRINSIC.map I

/-- The library function `strlen`: the number of bytes before the first zero byte. -/
def strlen (s : List Nat) : Nat :=
  (s.takeWhile (fun c => c != 0)).length

/-- The helper `CompareCharsEqual(lhs, rhs, chars)`: whether the first `chars` bytes are
the same. -/
def CompareCharsEqual (lhs rhs : List Nat) (chars : Nat) : Bool :=
  decide (lhs.take chars = rhs.take chars)

/-- The key of the name map: a pointer to bytes and a length. -/
structure IntrinsicFunctionIdentifier where
  data_ : List Nat
  length_ : Nat
  deriving DecidableEq, Repr

/-- The matcher `IntrinsicFunctionIdentifier::Match`. -/
def IntrinsicFunctionIdentifier.Match (lhs rhs : IntrinsicFunctionIdentifier) : Bool :=
  if lhs.length_ ≠ rhs.length_ then false
  else CompareCharsEqual lhs.data_ rhs.data_ rhs.length_

/-- The method `IntrinsicFunctionIdentifier::Hash`.  `StringHasher::HashSequentialString`
is not among the sources: `hasher` is its value on the first `length_` bytes, with the
seed `kZeroHashSeed`. -/
def IntrinsicFunctionIdentifier.Hash (hasher : List Nat → Nat)
    (identifier : IntrinsicFunctionIdentifier) : Nat :=
  hasher (identifier.data_.take identifier.length_)

/-- An entry of the name map (`base::HashMap::Entry`): the key, the value, here the index of
the table entry that the stored pointer points to, and the hash of the key. -/
structure Entry where
  key : IntrinsicFunctionIdentifier
  value : Nat
  hash : Nat
  deriving DecidableEq, Repr

/-- Modelled from the spec: the registry that maps intrinsic names to entries is a
`base::CustomMatcherHashMap` (`base/hashmap.h`), which is not among the sources.  It is
modelled by its entries in insertion order. -/
abbrev CustomMatcherHashMap := List Entry

/-- Modelled from the spec: `InsertNew` of the map that is not among the sources, followed
by the assignment of the value: a new entry for a key that the map does not hold. -/
def CustomMatcherHashMap.InsertNew (map : CustomMatcherHashMap)
    (key : IntrinsicFunctionIdentifier) (hash : Nat) (value : Nat) : CustomMatcherHashMap :=
  map ++ [{ key := key, value := value, hash := hash }]

/-- Modelled from the spec: `Lookup` of the map that is not among the sources: the entry
whose hash is the given hash and whose key the custom matcher accepts, if there is one. -/
def CustomMatcherHashMap.Lookup (map : CustomMatcherHashMap)
    (key : IntrinsicFunctionIdentifier) (hash : Nat) : Option Entry :=
  map.find? (fun e => decide (hash = e.hash) && IntrinsicFunctionIdentifier.Match key e.key)

/-- The loop of `InitializeIntrinsicFunctionNames` from index `i` on: `functions` are the
entries of the table that are left. -/
def InitializeLoop (hasher : List Nat → Nat) :
    Nat → List Function → CustomMatcherHashMap → CustomMatcherHashMap
  | _, [], function_name_map => function_name_map
  | i, function :: functions, function_name_map =>
    let identifier : IntrinsicFunctionIdentifier :=
      { data_ := function.name, length_ := strlen function.name }
    InitializeLoop hasher (i + 1) functions
      (function_name_map.InsertNew identifier (identifier.Hash hasher) i)

/-- The initialisation `InitializeIntrinsicFunctionNames`: the map `kRuntimeFunctionNameMap`
built from the table. -/
def InitializeIntrinsicFunctionNames (hasher : List Nat → Nat) (table : List Function) :
    CustomMatcherHashMap :=
  InitializeLoop hasher 0 table []

/-- The lookup `Runtime::FunctionForName` on the map initialised once from the table: the
index of the table entry that the returned pointer points to, or `none` for `nullptr`. -/
def FunctionForName (hasher : List Nat → Nat) (table : List Function) (name : List Nat)
    (length : Nat) : Option Nat :=
  let kRuntimeFunctionNameMap := InitializeIntrinsicFunctionNames hasher table
  let identifier : IntrinsicFunctionIdentifier := { data_ := name, length_ := length }
  match kRuntimeFunctionNameMap.Lookup identifier (identifier.Hash hasher) with
  | some entry => some entry.value
  | none => none

/-- The name of a table entry as a C string: its bytes before the terminator. -/
def Function.cname (function : Function) : List Nat :=
  function.name.take (strlen function.name)

/-- The linear search that the lookup is compared with: the index, counted from `i`, of the
first of `functions` whose name as a C string is `name`. -/
def findByName (name : List Nat) : Nat → List Function → Option Nat
  | _, [] => none
  | i, function :: functions =>
    if function.cname = name then some i else findByName name (i + 1) functions

/-- The bytes of an identifier given as text (`#name`). -/
def stringify (name : String) : List Nat :=
  name.toList.map Char.toNat

/-- A small `FOR_EACH_INTRINSIC` list for concrete evaluation. -/
def someIntrinsics : List Intrinsic :=
  [{ name := stringify "Throw", function_id := FunctionId.kThrow, entry := 4096,
      number_of_args := 1, result_size := 1 },
    { name := stringify "ReThrow", function_id := FunctionId.kReThrow, entry := 4160,
      number_of_args := 1, result_size := 1 },
    { name := stringify "AsyncFunctionReject", function_id := FunctionId.other 7,
      entry := 4224, number_of_args := 2, result_size := 1 }]

/-- A small `FOR_EACH_INLINE_INTRINSIC` list for concrete evaluation. -/
def someInlineIntrinsics : List Intrinsic :=
  [{ name := stringify "AsyncFunctionReject",
      function_id := FunctionId.kInlineAsyncFunctionReject, entry := 4224,
      number_of_args := 2, result_size := 1 }]

/-- A hash function on byte strings for concrete evaluation, with 32-bit results. -/
def someHasher (s : List Nat) : Nat :=
  s.foldl (fun h c => (h * 31 + c) % 2 ^ 32) 0

end Runtime

namespace WasmGC

/-! ## Theorems -/

/-- The analyzer query returns the type of the entry of an operation. -/
theorem GetInputType_entry {H : Type} (a : WasmGCTypeAnalyzer H) (op : OpIndex)
    (T : ValueType H) (h : a.input_type_map_ op = some T) : a.GetInputType op = .ok T := by
  simp [WasmGCTypeAnalyzer.GetInputType, h]

/-- An emission followed by a continuation: the continuation runs on the extended graph. -/
theorem Asm.bind_Emit {H β : Type} (op : Operation H) (f : OpIndex → Asm H β) (g : Graph H) :
    (Emit op).bind f g = f (OpIndex.Valid g.length) (g ++ [op]) := rfl

/-- An emission appends the operation and returns its index. -/
theorem Emit_apply {H : Type} (op : Operation H) (g : Graph H) :
    Emit op g = .ok (OpIndex.Valid g.length, g ++ [op]) := rfl

/-- A nullable type is not non-nullable. -/
theorem is_non_nullable_of_is_nullable {H : Type} (t : ValueType H)
    (h : t.is_nullable = true) : t.is_non_nullable = false := by
  cases t <;> simp_all [ValueType.is_nullable, ValueType.is_non_nullable]

/-- A non-nullable type is not nullable. -/
theorem is_nullable_of_is_non_nullable {H : Type} (t : ValueType H)
    (h : t.is_non_nullable = true) : t.is_nullable = false := by
  cases t <;> simp_all [ValueType.is_nullable, ValueType.is_non_nullable]

/-- C3: a cast whose recorded input type is a heap subtype of the target, with a nullable
target or a non-nullable input, emits nothing and returns the image of the cast's object. -/
theorem cast_subtype_dropped {H : Type} [DecidableEq H] [Inhabited H]
    (r : WasmGCTypeReducer H) (op_idx : OpIndex)
    (cast_op : WasmTypeCastOp H) (T : ValueType H) (g : Graph H)
    (hT : r.analyzer_.input_type_map_ op_idx = some T)
    (htop : T ≠ ValueType.top) (hbot : T ≠ kWasmBottom)
    (hsub : r.module_.IsHeapSubtypeOf T.heap_type cast_op.config.to_.heap_type = true)
    (hnull : cast_op.config.to_.is_nullable = true ∨ T.is_non_nullable = true) :
    r.ReduceInputGraphWasmTypeCast op_idx cast_op g =
      .ok (r.MapToNewGraph cast_op.object, g) := by
  simp only [WasmGCTypeReducer.ReduceInputGraphWasmTypeCast, bind, Asm.bind, liftExcept,
    GetInputType_entry _ _ _ hT]
  rcases hnull with h | h <;> simp [htop, hbot, hsub, h, pure, Asm.pure]

/-- Witness of C3: a non-null `dog` cast to nullable `animal`. -/
theorem cast_subtype_dropped_witness :
    (zooReducer (.ref .dog false)).ReduceInputGraphWasmTypeCast (OpIndex.Valid 5)
      (zooCast (.ref .any true) (.ref .animal true)) zooGraph =
      .ok (OpIndex.Valid 0, zooGraph) :=
  cast_subtype_dropped (zooReducer (.ref .dog false)) (OpIndex.Valid 5)
    (zooCast (.ref .any true) (.ref .animal true)) (.ref .dog false) zooGraph rfl
    (by decide) (by decide) (by decide) (Or.inl (by decide))

/-- C4: a cast whose recorded input type is a nullable heap subtype of a non-nullable target
emits exactly one operation, `AssertNotNull` on the image of the cast's object, typed with
the recorded type and trapping with `kTrapIllegalCast`, and returns it. -/
theorem cast_subtype_assert_not_null {H : Type} [DecidableEq H] [Inhabited H]
    (r : WasmGCTypeReducer H) (op_idx : OpIndex)
    (cast_op : WasmTypeCastOp H) (T : ValueType H) (g : Graph H)
    (hT : r.analyzer_.input_type_map_ op_idx = some T)
    (htop : T ≠ ValueType.top) (hbot : T ≠ kWasmBottom)
    (hsub : r.module_.IsHeapSubtypeOf T.heap_type cast_op.config.to_.heap_type = true)
    (hto : cast_op.config.to_.is_non_nullable = true) (hnull : T.is_nullable = true) :
    r.ReduceInputGraphWasmTypeCast op_idx cast_op g =
      .ok (OpIndex.Valid g.length,
        g ++ [Operation.AssertNotNull (r.MapToNewGraph cast_op.object) T
          TrapId.kTrapIllegalCast]) := by
  simp only [WasmGCTypeReducer.ReduceInputGraphWasmTypeCast, bind, Asm.bind, liftExcept,
    GetInputType_entry _ _ _ hT]
  simp [htop, hbot, hsub, is_nullable_of_is_non_nullable _ hto,
    is_non_nullable_of_is_nullable _ hnull, Emit]

/-- Witness of C4: a nullable `dog` cast to non-null `animal`. -/
theorem cast_subtype_assert_not_null_witness :
    (zooReducer (.ref .dog true)).ReduceInputGraphWasmTypeCast (OpIndex.Valid 5)
      (zooCast (.ref .any true) (.ref .animal false)) zooGraph =
      .ok (OpIndex.Valid 1, zooGraph ++ [Operation.AssertNotNull (OpIndex.Valid 0)
        (.ref .dog true) TrapId.kTrapIllegalCast]) :=
  cast_subtype_assert_not_null (zooReducer (.ref .dog true)) (OpIndex.Valid 5)
    (zooCast (.ref .any true) (.ref .animal false)) (.ref .dog true) zooGraph rfl
    (by decide) (by decide) (by decide) (by decide) (by decide)

/-- C5, amended: a cast to a non-nullable target whose recorded input type is heap-unrelated
to the target, and not an implicit internalization, emits an unconditional trap (`TrapIfNot`
of the constant 0) whether or not the input type is nullable, and returns the image of the
cast's object. -/
theorem cast_unrelated_non_nullable_target {H : Type} [DecidableEq H] [Inhabited H]
    (r : WasmGCTypeReducer H) (op_idx : OpIndex)
    (cast_op : WasmTypeCastOp H) (T : ValueType H) (g : Graph H)
    (hT : r.analyzer_.input_type_map_ op_idx = some T)
    (htop : T ≠ ValueType.top) (hbot : T ≠ kWasmBottom)
    (hsub : r.module_.IsHeapSubtypeOf T.heap_type cast_op.config.to_.heap_type = false)
    (hunrel : r.module_.HeapTypesUnrelated T.heap_type cast_op.config.to_.heap_type = true)
    (himpl : r.module_.IsImplicitInternalization T cast_op.config.to_ = false)
    (hto : cast_op.config.to_.is_non_nullable = true) :
    r.ReduceInputGraphWasmTypeCast op_idx cast_op g =
      .ok (r.MapToNewGraph cast_op.object,
        g ++ [Operation.Word32Constant 0,
          Operation.TrapIfNot (OpIndex.Valid g.length) OpIndex.Invalid
            TrapId.kTrapIllegalCast]) := by
  simp only [WasmGCTypeReducer.ReduceInputGraphWasmTypeCast, bind, Asm.bind, liftExcept,
    GetInputType_entry _ _ _ hT]
  simp [htop, hbot, hsub, hunrel, himpl, is_nullable_of_is_non_nullable _ hto,
    Asm.bind_Emit, pure, Asm.pure]

/-- Witness of C5, amended: a nullable `cat` cast to non-null `dog`. -/
theorem cast_unrelated_non_nullable_target_witness :
    (zooReducer (.ref .cat true)).ReduceInputGraphWasmTypeCast (OpIndex.Valid 5)
      (zooCast (.ref .any true) (.ref .dog false)) zooGraph =
      .ok (OpIndex.Valid 0,
        zooGraph ++ [Operation.Word32Constant 0,
          Operation.TrapIfNot (OpIndex.Valid 1) OpIndex.Invalid TrapId.kTrapIllegalCast]) :=
  cast_unrelated_non_nullable_target (zooReducer (.ref .cat true)) (OpIndex.Valid 5)
    (zooCast (.ref .any true) (.ref .dog false)) (.ref .cat true) zooGraph rfl
    (by decide) (by decide) (by decide) (by decide) (by decide) (by decide)

/-- C5, counterexample: for the nullable input type `cat` and the non-nullable unrelated
target `dog` the emitted trap is not guarded by `IsNull`: its condition is the constant 0
and it fires on a null input as well.  For the non-null input type `externref`, unrelated
to `dog` but implicitly internalized, no trap is emitted at all: the cast is re-emitted. -/
theorem cast_unrelated_non_nullable_target_counterexample :
    (zooModule.IsHeapSubtypeOf (ValueType.ref Zoo.cat true).heap_type
        (zooCast (.ref .any true) (.ref .dog false)).config.to_.heap_type = false ∧
      zooModule.HeapTypesUnrelated (ValueType.ref Zoo.cat true).heap_type
        (zooCast (.ref .any true) (.ref .dog false)).config.to_.heap_type = true ∧
      (zooCast (.ref .any true) (.ref .dog false)).config.to_.is_non_nullable = true ∧
      (ValueType.ref Zoo.cat true).is_nullable = true ∧
      (zooReducer (.ref .cat true)).ReduceInputGraphWasmTypeCast (OpIndex.Valid 5)
        (zooCast (.ref .any true) (.ref .dog false)) zooGraph =
        .ok (OpIndex.Valid 0,
          zooGraph ++ [Operation.Word32Constant 0,
            Operation.TrapIfNot (OpIndex.Valid 1) OpIndex.Invalid
              TrapId.kTrapIllegalCast]) ∧
      run zooModule [Operation.Word32Constant 0,
          Operation.TrapIfNot (OpIndex.Valid 1) OpIndex.Invalid TrapId.kTrapIllegalCast]
        [Value.null] = .error (Fault.Trap TrapId.kTrapIllegalCast)) ∧
    (zooModule.IsHeapSubtypeOf (ValueType.ref Zoo.externref false).heap_type
        (zooCast (.ref .externref true) (.ref .dog false)).config.to_.heap_type = false ∧
      zooModule.HeapTypesUnrelated (ValueType.ref Zoo.externref false).heap_type
        (zooCast (.ref .externref true) (.ref .dog false)).config.to_.heap_type = true ∧
      (zooCast (.ref .externref true) (.ref .dog false)).config.to_.is_non_nullable = true ∧
      (ValueType.ref Zoo.externref false).is_non_nullable = true ∧
      (zooReducer (.ref .externref false)).ReduceInputGraphWasmTypeCast (OpIndex.Valid 5)
        (zooCast (.ref .externref true) (.ref .dog false)) zooGraph =
        .ok (OpIndex.Valid 1,
          zooGraph ++ [Operation.WasmTypeCast (OpIndex.Valid 0) OpIndex.Invalid
            { from_ := .ref .externref false, to_ := .ref .dog false }])) := by
  exact ⟨⟨by decide, by decide, by decide, by decide, rfl, rfl⟩,
    ⟨by decide, by decide, by decide, by decide, rfl⟩⟩

/-- C6: a cast whose recorded input type is not a heap subtype of the target, is
heap-unrelated to it and is not an implicit internalization emits a condition followed by
exactly one `TrapIfNot` on it with reason `kTrapIllegalCast`, and returns the image of the
object.  The condition is the constant 0 whenever the target or the input type is
non-nullable, and it is `IsNull` of the object exactly when both are nullable. -/
theorem cast_unrelated_traps {H : Type} [DecidableEq H] [Inhabited H]
    (r : WasmGCTypeReducer H) (op_idx : OpIndex)
    (cast_op : WasmTypeCastOp H) (T : ValueType H) (g : Graph H)
    (hT : r.analyzer_.input_type_map_ op_idx = some T)
    (htop : T ≠ ValueType.top) (hbot : T ≠ kWasmBottom)
    (hsub : r.module_.IsHeapSubtypeOf T.heap_type cast_op.config.to_.heap_type = false)
    (hunrel : r.module_.HeapTypesUnrelated T.heap_type cast_op.config.to_.heap_type = true)
    (himpl : r.module_.IsImplicitInternalization T cast_op.config.to_ = false) :
    ∃ condition : Operation H,
      r.ReduceInputGraphWasmTypeCast op_idx cast_op g =
        .ok (r.MapToNewGraph cast_op.object,
          g ++ [condition,
            Operation.TrapIfNot (OpIndex.Valid g.length) OpIndex.Invalid
              TrapId.kTrapIllegalCast]) ∧
      (condition = Operation.Word32Constant 0 ∨
        condition = Operation.IsNull (r.MapToNewGraph cast_op.object) T) ∧
      ((cast_op.config.to_.is_non_nullable = true ∨ T.is_non_nullable = true) →
        condition = Operation.Word32Constant 0) ∧
      (condition = Operation.IsNull (r.MapToNewGraph cast_op.object) T ↔
        (T.is_nullable = true ∧ cast_op.config.to_.is_nullable = true)) := by
  simp only [WasmGCTypeReducer.ReduceInputGraphWasmTypeCast, bind, Asm.bind, liftExcept,
    GetInputType_entry _ _ _ hT]
  by_cases hboth : T.is_nullable = true ∧ cast_op.config.to_.is_nullable = true
  · refine ⟨Operation.IsNull (r.MapToNewGraph cast_op.object) T, ?_, Or.inr rfl, ?_, ?_⟩
    · simp [htop, hbot, hsub, hunrel, himpl, hboth.1, hboth.2, Asm.bind_Emit,
        pure, Asm.pure]
    · rintro (h | h)
      · have := is_nullable_of_is_non_nullable _ h
        simp [hboth.2] at this
      · have := is_nullable_of_is_non_nullable _ h
        simp [hboth.1] at this
    · simp [hboth]
  · refine ⟨Operation.Word32Constant 0, ?_, Or.inl rfl, fun _ => rfl, ?_⟩
    · have hc : (T.is_nullable && cast_op.config.to_.is_nullable) = false := by
        cases h1 : T.is_nullable <;> cases h2 : cast_op.config.to_.is_nullable <;>
          simp_all
      simp [htop, hbot, hsub, hunrel, himpl, hc, Asm.bind_Emit, pure, Asm.pure]
    · simp [hboth]

/-- Witness of C6: the exact non-null `cat` cast to the non-nullable `dog` traps
unconditionally. -/
theorem cast_unrelated_traps_witness :
    ∃ condition : Operation Zoo,
      (zooReducer (.ref .cat false)).ReduceInputGraphWasmTypeCast (OpIndex.Valid 5)
          (zooCast (.ref .any true) (.ref .dog false)) zooGraph =
        .ok (OpIndex.Valid 0,
          zooGraph ++ [condition,
            Operation.TrapIfNot (OpIndex.Valid 1) OpIndex.Invalid
              TrapId.kTrapIllegalCast]) ∧
      (condition = Operation.Word32Constant 0 ∨
        condition = Operation.IsNull (OpIndex.Valid 0) (.ref .cat false)) ∧
      (((ValueType.ref Zoo.dog false).is_non_nullable = true ∨
          (ValueType.ref Zoo.cat false).is_non_nullable = true) →
        condition = Operation.Word32Constant 0) ∧
      (condition = Operation.IsNull (OpIndex.Valid 0) (.ref .cat false) ↔
        ((ValueType.ref Zoo.cat false).is_nullable = true ∧
          (ValueType.ref Zoo.dog false).is_nullable = true)) :=
  cast_unrelated_traps (zooReducer (.ref .cat false)) (OpIndex.Valid 5)
    (zooCast (.ref .any true) (.ref .dog false)) (.ref .cat false) zooGraph rfl
    (by decide) (by decide) (by decide) (by decide) (by decide)

/-- C7: a check whose recorded input type is a heap subtype of the target returns the
constant 1 if the target is nullable or the input type non-nullable, and otherwise
`Word32Equal(IsNull(object, T), 0)`; no `WasmTypeCheck` is emitted. -/
theorem check_subtype_folded {H : Type} [DecidableEq H] [Inhabited H]
    (r : WasmGCTypeReducer H) (op_idx : OpIndex)
    (type_check : WasmTypeCheckOp H) (T : ValueType H) (g : Graph H)
    (hT : r.analyzer_.input_type_map_ op_idx = some T)
    (htop : T ≠ ValueType.top) (hbot : T ≠ kWasmBottom)
    (hsub : r.module_.IsHeapSubtypeOf T.heap_type type_check.config.to_.heap_type = true) :
    r.ReduceInputGraphWasmTypeCheck op_idx type_check g =
      if type_check.config.to_.is_nullable = true ∨ T.is_non_nullable = true then
        .ok (OpIndex.Valid g.length, g ++ [Operation.Word32Constant 1])
      else
        .ok (OpIndex.Valid (g.length + 2),
          g ++ [Operation.IsNull (r.MapToNewGraph type_check.object) T,
            Operation.Word32Constant 0,
            Operation.Word32Equal (OpIndex.Valid g.length) (OpIndex.Valid (g.length + 1))])
    := by
  simp only [WasmGCTypeReducer.ReduceInputGraphWasmTypeCheck, bind, Asm.bind, liftExcept,
    GetInputType_entry _ _ _ hT]
  cases h1 : type_check.config.to_.is_nullable <;> cases h2 : T.is_non_nullable <;>
    simp [htop, hbot, hsub, h1, h2, Asm.bind_Emit, Emit_apply]

/-- Witness of C7: a nullable `dog` checked against non-null `animal`. -/
theorem check_subtype_folded_witness :
    (zooReducer (.ref .dog true)).ReduceInputGraphWasmTypeCheck (OpIndex.Valid 5)
      (zooCheck (.ref .any true) (.ref .animal false)) zooGraph =
      if (zooCheck (.ref .any true) (.ref .animal false)).config.to_.is_nullable = true ∨
          (ValueType.ref Zoo.dog true).is_non_nullable = true then
        .ok (OpIndex.Valid zooGraph.length, zooGraph ++ [Operation.Word32Constant 1])
      else
        .ok (OpIndex.Valid (zooGraph.length + 2),
          zooGraph ++ [Operation.IsNull (OpIndex.Valid 0) (.ref .dog true),
            Operation.Word32Constant 0,
            Operation.Word32Equal (OpIndex.Valid zooGraph.length)
              (OpIndex.Valid (zooGraph.length + 1))]) :=
  check_subtype_folded (zooReducer (.ref .dog true)) (OpIndex.Valid 5)
    (zooCheck (.ref .any true) (.ref .animal false)) (.ref .dog true) zooGraph rfl
    (by decide) (by decide) (by decide)

/-- C8: a check whose recorded input type is not a heap subtype of the target and is
heap-unrelated to it returns `IsNull(object, T)` if both the input type and the target are
nullable and the constant 0 otherwise; no `WasmTypeCheck` is emitted. -/
theorem check_unrelated_folded {H : Type} [DecidableEq H] [Inhabited H]
    (r : WasmGCTypeReducer H) (op_idx : OpIndex)
    (type_check : WasmTypeCheckOp H) (T : ValueType H) (g : Graph H)
    (hT : r.analyzer_.input_type_map_ op_idx = some T)
    (htop : T ≠ ValueType.top) (hbot : T ≠ kWasmBottom)
    (hsub : r.module_.IsHeapSubtypeOf T.heap_type type_check.config.to_.heap_type = false)
    (hunrel : r.module_.HeapTypesUnrelated T.heap_type type_check.config.to_.heap_type
      = true) :
    r.ReduceInputGraphWasmTypeCheck op_idx type_check g =
      if T.is_nullable = true ∧ type_check.config.to_.is_nullable = true then
        .ok (OpIndex.Valid g.length,
          g ++ [Operation.IsNull (r.MapToNewGraph type_check.object) T])
      else
        .ok (OpIndex.Valid g.length, g ++ [Operation.Word32Constant 0]) := by
  simp only [WasmGCTypeReducer.ReduceInputGraphWasmTypeCheck, bind, Asm.bind, liftExcept,
    GetInputType_entry _ _ _ hT]
  cases h1 : type_check.config.to_.is_nullable <;> cases h2 : T.is_nullable <;>
    simp [htop, hbot, hsub, hunrel, h1, h2, Emit_apply]

/-- Witness of C8: a nullable `cat` checked against nullable `dog`. -/
theorem check_unrelated_folded_witness :
    (zooReducer (.ref .cat true)).ReduceInputGraphWasmTypeCheck (OpIndex.Valid 5)
      (zooCheck (.ref .any true) (.ref .dog true)) zooGraph =
      if (ValueType.ref Zoo.cat true).is_nullable = true ∧
          (zooCheck (.ref .any true) (.ref .dog true)).config.to_.is_nullable = true then
        .ok (OpIndex.Valid zooGraph.length,
          zooGraph ++ [Operation.IsNull (OpIndex.Valid 0) (.ref .cat true)])
      else
        .ok (OpIndex.Valid zooGraph.length, zooGraph ++ [Operation.Word32Constant 0]) :=
  check_unrelated_folded (zooReducer (.ref .cat true)) (OpIndex.Valid 5)
    (zooCheck (.ref .any true) (.ref .dog true)) (.ref .cat true) zooGraph rfl
    (by decide) (by decide) (by decide) (by decide)

/-- C9: in the fall-through case the cast reducer and the check reducer each emit exactly
one operation of the same kind on the images of the same object and rtt, with the target
unchanged and the source type replaced by the intersection of the recorded input type with
the declared source type. -/
theorem fallthrough_narrows_source {H : Type} [DecidableEq H] [Inhabited H]
    (r : WasmGCTypeReducer H) :
    (∀ (op_idx : OpIndex) (cast_op : WasmTypeCastOp H) (T : ValueType H) (g : Graph H),
      r.analyzer_.input_type_map_ op_idx = some T →
      T ≠ ValueType.top → T ≠ kWasmBottom →
      r.module_.IsHeapSubtypeOf T.heap_type cast_op.config.to_.heap_type = false →
      (r.module_.HeapTypesUnrelated T.heap_type cast_op.config.to_.heap_type &&
        !r.module_.IsImplicitInternalization T cast_op.config.to_) = false →
      r.ReduceInputGraphWasmTypeCast op_idx cast_op g =
        .ok (OpIndex.Valid g.length,
          g ++ [Operation.WasmTypeCast (r.MapToNewGraph cast_op.object)
            (r.MapToNewGraphIfValid cast_op.rtt)
            { from_ := r.module_.Intersection T cast_op.config.from_,
              to_ := cast_op.config.to_ }])) ∧
    (∀ (op_idx : OpIndex) (type_check : WasmTypeCheckOp H) (T : ValueType H) (g : Graph H),
      r.analyzer_.input_type_map_ op_idx = some T →
      T ≠ ValueType.top → T ≠ kWasmBottom →
      r.module_.IsHeapSubtypeOf T.heap_type type_check.config.to_.heap_type = false →
      r.module_.HeapTypesUnrelated T.heap_type type_check.config.to_.heap_type = false →
      r.ReduceInputGraphWasmTypeCheck op_idx type_check g =
        .ok (OpIndex.Valid g.length,
          g ++ [Operation.WasmTypeCheck (r.MapToNewGraph type_check.object)
            (r.MapToNewGraphIfValid type_check.rtt)
            { from_ := r.module_.Intersection T type_check.config.from_,
              to_ := type_check.config.to_ }])) := by
  constructor
  · intro op_idx cast_op T g hT htop hbot hsub hunrel
    simp only [WasmGCTypeReducer.ReduceInputGraphWasmTypeCast, bind, Asm.bind, liftExcept,
      GetInputType_entry _ _ _ hT]
    simp [htop, hbot, hsub, hunrel, Emit_apply]
  · intro op_idx type_check T g hT htop hbot hsub hunrel
    simp only [WasmGCTypeReducer.ReduceInputGraphWasmTypeCheck, bind, Asm.bind, liftExcept,
      GetInputType_entry _ _ _ hT]
    simp [htop, hbot, hsub, hunrel, Emit_apply]

/-- Witness of C9: a nullable `animal` cast to, and checked against, non-null `dog`, both
declared from nullable `any`. -/
theorem fallthrough_narrows_source_witness :
    (zooReducer (.ref .animal true)).ReduceInputGraphWasmTypeCast (OpIndex.Valid 5)
        (zooCast (.ref .any true) (.ref .dog false)) zooGraph =
      .ok (OpIndex.Valid 1,
        zooGraph ++ [Operation.WasmTypeCast (OpIndex.Valid 0) OpIndex.Invalid
          { from_ := .ref .animal true, to_ := .ref .dog false }]) ∧
    (zooReducer (.ref .animal true)).ReduceInputGraphWasmTypeCheck (OpIndex.Valid 5)
        (zooCheck (.ref .any true) (.ref .dog false)) zooGraph =
      .ok (OpIndex.Valid 1,
        zooGraph ++ [Operation.WasmTypeCheck (OpIndex.Valid 0) OpIndex.Invalid
          { from_ := .ref .animal true, to_ := .ref .dog false }]) :=
  ⟨(fallthrough_narrows_source (zooReducer (.ref .animal true))).1 (OpIndex.Valid 5)
      (zooCast (.ref .any true) (.ref .dog false)) (.ref .animal true) zooGraph rfl
      (by decide) (by decide) (by decide) (by decide),
    (fallthrough_narrows_source (zooReducer (.ref .animal true))).2 (OpIndex.Valid 5)
      (zooCheck (.ref .any true) (.ref .dog false)) (.ref .animal true) zooGraph rfl
      (by decide) (by decide) (by decide) (by decide)⟩

/-- C10: a null assertion is dropped (nothing is emitted and the image of its object is
returned) when the recorded input type is non-nullable, and for every other recorded type
the reducer returns exactly the default reduction of the operation; hence, when the default
reduction does not itself drop the operation, it is dropped iff the recorded type is
non-nullable. -/
theorem assert_not_null_dropped_iff_non_nullable {H : Type}
    (r : WasmGCTypeReducer H) (op_idx : OpIndex)
    (assert_not_null : AssertNotNullOp H) (T : ValueType H) (g : Graph H)
    (hT : r.analyzer_.input_type_map_ op_idx = some T) :
    (T.is_non_nullable = true →
      r.ReduceInputGraphAssertNotNull op_idx assert_not_null g =
        .ok (r.MapToNewGraph assert_not_null.object, g)) ∧
    (T.is_non_nullable = false →
      r.ReduceInputGraphAssertNotNull op_idx assert_not_null g =
        r.Next.ReduceInputGraphAssertNotNull op_idx assert_not_null g) ∧
    (r.Next.ReduceInputGraphAssertNotNull op_idx assert_not_null g ≠
        .ok (r.MapToNewGraph assert_not_null.object, g) →
      (r.ReduceInputGraphAssertNotNull op_idx assert_not_null g =
          .ok (r.MapToNewGraph assert_not_null.object, g) ↔
        T.is_non_nullable = true)) := by
  simp only [WasmGCTypeReducer.ReduceInputGraphAssertNotNull, bind, Asm.bind, liftExcept,
    GetInputType_entry _ _ _ hT]
  refine ⟨?_, ?_, ?_⟩
  · intro h
    simp [h, pure, Asm.pure]
  · intro h
    simp [h]
  · intro hnext
    cases h : T.is_non_nullable
    · simp [hnext]
    · simp [pure, Asm.pure]

/-- Witness of C10: with the recorded type nullable `dog` the assertion is kept (the default
reduction emits it), and with non-null `dog` it is dropped. -/
theorem assert_not_null_dropped_iff_non_nullable_witness :
    ((zooReducer (.ref .dog true)).ReduceInputGraphAssertNotNull (OpIndex.Valid 5)
        zooAssertNotNull zooGraph =
      .ok (OpIndex.Valid 1,
        zooGraph ++ [Operation.AssertNotNull (OpIndex.Valid 0) (.ref .any true)
          TrapId.kTrapNullDereference])) ∧
    ((zooReducer (.ref .dog false)).ReduceInputGraphAssertNotNull (OpIndex.Valid 5)
        zooAssertNotNull zooGraph = .ok (OpIndex.Valid 0, zooGraph)) :=
  ⟨(assert_not_null_dropped_iff_non_nullable (zooReducer (.ref .dog true)) (OpIndex.Valid 5)
      zooAssertNotNull (.ref .dog true) zooGraph rfl).2.1 (by decide),
    (assert_not_null_dropped_iff_non_nullable (zooReducer (.ref .dog false)) (OpIndex.Valid 5)
      zooAssertNotNull (.ref .dog false) zooGraph rfl).1 (by decide)⟩

/-- A value computed before an extension of the values is still found at its index. -/
theorem valueAt_append_left {H : Type} (vals extra : List (Value H)) (i : Nat) (v : Value H)
    (h : valueAt vals (OpIndex.Valid i) = some v) :
    valueAt (vals ++ extra) (OpIndex.Valid i) = some v := by
  simp only [valueAt] at h ⊢
  have hi : i < vals.length := by
    by_contra hc
    rw [List.getElem?_eq_none (by omega)] at h
    cases h
  rw [List.getElem?_append_left hi]
  exact h

/-- The value appended last is found at the index of the operation that computed it. -/
theorem valueAt_append_new {H : Type} (vals : List (Value H)) (x : Value H) :
    valueAt (vals ++ [x]) (OpIndex.Valid vals.length) = some x := by
  simp [valueAt]

/-- The values appended by later operations are found from the old length on. -/
theorem valueAt_append_right {H : Type} (vals extra : List (Value H)) (k : Nat) :
    valueAt (vals ++ extra) (OpIndex.Valid (vals.length + k)) = extra[k]? := by
  simp [valueAt, List.getElem?_append_right]

/-- The first value appended is found at the old length. -/
theorem valueAt_append_zero {H : Type} (vals extra : List (Value H)) :
    valueAt (vals ++ extra) (OpIndex.Valid vals.length) = extra[0]? := by
  simpa using valueAt_append_right vals extra 0

/-- C1: for a sound module, a recorded input type that is neither top nor bottom and a
value conforming to it, the cast reducer succeeds and the operations it emits trap (with
`kTrapIllegalCast`) iff the value does not conform to the target; when they do not trap,
the value of the index returned for the cast is the value itself. -/
theorem cast_reduction_preserves_behaviour {H : Type} [DecidableEq H] [Inhabited H]
    (r : WasmGCTypeReducer H) (op_idx : OpIndex)
    (cast_op : WasmTypeCastOp H) (T : ValueType H) (g : Graph H)
    (vals : List (Value H)) (v : Value H)
    (hsound : r.module_.Sound)
    (hT : r.analyzer_.input_type_map_ op_idx = some T)
    (htop : T ≠ ValueType.top) (hbot : T ≠ kWasmBottom)
    (hlen : vals.length = g.length)
    (hv : valueAt vals (r.MapToNewGraph cast_op.object) = some v)
    (hconf : conforms r.module_ v T = true) :
    ∃ (ret : OpIndex) (emitted : List (Operation H)),
      r.ReduceInputGraphWasmTypeCast op_idx cast_op g = .ok (ret, g ++ emitted) ∧
      (if conforms r.module_ v cast_op.config.to_ = true then
        ∃ vals' : List (Value H),
          run r.module_ emitted vals = .ok vals' ∧ valueAt vals' ret = some v
      else run r.module_ emitted vals = .error (Fault.Trap TrapId.kTrapIllegalCast)) := by
  obtain ⟨htrans, hdisj⟩ := hsound
  simp only [WasmGCTypeReducer.ReduceInputGraphWasmTypeCast, bind, Asm.bind, liftExcept,
    GetInputType_entry _ _ _ hT]
  rw [if_pos ⟨htop, hbot⟩]
  cases hobj : r.MapToNewGraph cast_op.object with
  | Invalid => simp [hobj, valueAt] at hv
  | Valid i =>
    rw [hobj] at hv
    have hvi : valueAt vals (OpIndex.Valid i) = some v := hv
    have hkeep : ∀ extra : List (Value H),
        valueAt (vals ++ extra) (OpIndex.Valid i) = some v :=
      fun extra => valueAt_append_left vals extra i v hv
    cases hsub : r.module_.IsHeapSubtypeOf T.heap_type cast_op.config.to_.heap_type with
    | true =>
      by_cases hdrop : cast_op.config.to_.is_nullable = true ∨ T.is_non_nullable = true
      · have hc : conforms r.module_ v cast_op.config.to_ = true := by
          cases v with
          | null =>
            simp only [conforms] at hconf ⊢
            rcases hdrop with h | h
            · exact h
            · rw [is_nullable_of_is_non_nullable _ h] at hconf
              cases hconf
          | object heap => exact htrans _ _ _ hconf hsub
          | word32 n => simp [conforms] at hconf
          | void => simp [conforms] at hconf
        refine ⟨OpIndex.Valid i, [], ?_, ?_⟩
        · rcases hdrop with h | h <;> simp [h, pure, Asm.pure]
        · rw [if_pos hc]
          exact ⟨vals, rfl, hvi⟩
      · have h1 : cast_op.config.to_.is_nullable = false := by
          cases h : cast_op.config.to_.is_nullable
          · rfl
          · exact absurd (Or.inl h) hdrop
        have h2 : T.is_non_nullable = false := by
          cases h : T.is_non_nullable
          · rfl
          · exact absurd (Or.inr h) hdrop
        refine ⟨OpIndex.Valid g.length,
          [Operation.AssertNotNull (OpIndex.Valid i) T TrapId.kTrapIllegalCast], ?_, ?_⟩
        · simp [h1, h2, Emit_apply]
        · cases v with
          | null =>
            have hc : conforms r.module_ Value.null cast_op.config.to_ = false := by
              simp [conforms, h1]
            simp [hc, run, evalOp, hvi]
          | object heap =>
            have hc : conforms r.module_ (Value.object heap) cast_op.config.to_ = true :=
              htrans _ _ _ hconf hsub
            rw [if_pos hc]
            refine ⟨vals ++ [Value.object heap], ?_, ?_⟩
            · simp [run, evalOp, hvi]
            · rw [← hlen]
              exact valueAt_append_new vals _
          | word32 n => simp [conforms] at hconf
          | void => simp [conforms] at hconf
    | false =>
      cases hu : (r.module_.HeapTypesUnrelated T.heap_type cast_op.config.to_.heap_type &&
          !r.module_.IsImplicitInternalization T cast_op.config.to_) with
      | true =>
        have hunrel : r.module_.HeapTypesUnrelated T.heap_type
            cast_op.config.to_.heap_type = true := by
          simp only [Bool.and_eq_true] at hu
          exact hu.1
        have hobjfail : ∀ heap : H, conforms r.module_ (Value.object heap) T = true →
            conforms r.module_ (Value.object heap) cast_op.config.to_ = false := by
          intro heap h
          cases hc : conforms r.module_ (Value.object heap) cast_op.config.to_
          · rfl
          · exact absurd ⟨h, hc⟩ (hdisj _ _ hunrel heap)
        cases hb : (T.is_nullable && cast_op.config.to_.is_nullable) with
        | true =>
          simp only [Bool.and_eq_true] at hb
          refine ⟨OpIndex.Valid i,
            [Operation.IsNull (OpIndex.Valid i) T,
              Operation.TrapIfNot (OpIndex.Valid g.length) OpIndex.Invalid
                TrapId.kTrapIllegalCast], ?_, ?_⟩
          · simp [hb.1, hb.2, Asm.bind_Emit, pure, Asm.pure]
          · cases v with
            | null =>
              have hc : conforms r.module_ Value.null cast_op.config.to_ = true := by
                simp [conforms, hb.2]
              rw [if_pos hc]
              refine ⟨vals ++ [Value.word32 1] ++ [Value.void], ?_, ?_⟩
              · simp [run, evalOp, hvi, ← hlen, valueAt_append_new]
              · rw [List.append_assoc]
                exact hkeep _
            | object heap =>
              simp [hobjfail heap hconf, run, evalOp, hvi, ← hlen, valueAt_append_new]
            | word32 n => simp [conforms] at hconf
            | void => simp [conforms] at hconf
        | false =>
          have hc : conforms r.module_ v cast_op.config.to_ = false := by
            cases v with
            | null =>
              simp only [conforms] at hconf ⊢
              rw [hconf] at hb
              simpa using hb
            | object heap => exact hobjfail heap hconf
            | word32 n => simp [conforms] at hconf
            | void => simp [conforms] at hconf
          refine ⟨OpIndex.Valid i,
            [Operation.Word32Constant 0,
              Operation.TrapIfNot (OpIndex.Valid g.length) OpIndex.Invalid
                TrapId.kTrapIllegalCast], ?_, ?_⟩
          · simp [hb, Asm.bind_Emit, pure, Asm.pure]
          · simp [hc, run, evalOp, ← hlen, valueAt_append_new]
      | false =>
        refine ⟨OpIndex.Valid g.length,
          [Operation.WasmTypeCast (OpIndex.Valid i) (r.MapToNewGraphIfValid cast_op.rtt)
            { from_ := r.module_.Intersection T cast_op.config.from_,
              to_ := cast_op.config.to_ }], ?_, ?_⟩
        · simp [Emit_apply]
        · by_cases hc : conforms r.module_ v cast_op.config.to_ = true
          · rw [if_pos hc]
            refine ⟨vals ++ [v], ?_, ?_⟩
            · simp [run, evalOp, hvi, hc]
            · rw [← hlen]
              exact valueAt_append_new vals _
          · rw [if_neg hc]
            simp [run, evalOp, hvi, hc]

/-- C2: for a sound module, a recorded input type that is neither top nor bottom and a
value conforming to it, the check reducer succeeds, the operations it emits do not trap,
and the value of the returned index is 1 if the value conforms to the target and 0
otherwise. -/
theorem check_reduction_preserves_value {H : Type} [DecidableEq H] [Inhabited H]
    (r : WasmGCTypeReducer H) (op_idx : OpIndex)
    (type_check : WasmTypeCheckOp H) (T : ValueType H) (g : Graph H)
    (vals : List (Value H)) (v : Value H)
    (hsound : r.module_.Sound)
    (hT : r.analyzer_.input_type_map_ op_idx = some T)
    (htop : T ≠ ValueType.top) (hbot : T ≠ kWasmBottom)
    (hlen : vals.length = g.length)
    (hv : valueAt vals (r.MapToNewGraph type_check.object) = some v)
    (hconf : conforms r.module_ v T = true) :
    ∃ (ret : OpIndex) (emitted : List (Operation H)) (vals' : List (Value H)),
      r.ReduceInputGraphWasmTypeCheck op_idx type_check g = .ok (ret, g ++ emitted) ∧
      run r.module_ emitted vals = .ok vals' ∧
      valueAt vals' ret =
        some (Value.word32 (if conforms r.module_ v type_check.config.to_ = true then 1
          else 0)) := by
  obtain ⟨htrans, hdisj⟩ := hsound
  simp only [WasmGCTypeReducer.ReduceInputGraphWasmTypeCheck, bind, Asm.bind, liftExcept,
    GetInputType_entry _ _ _ hT]
  rw [if_pos ⟨htop, hbot⟩]
  cases hobj : r.MapToNewGraph type_check.object with
  | Invalid => simp [hobj, valueAt] at hv
  | Valid i =>
    rw [hobj] at hv
    have hvi : valueAt vals (OpIndex.Valid i) = some v := hv
    cases hsub : r.module_.IsHeapSubtypeOf T.heap_type type_check.config.to_.heap_type with
    | true =>
      by_cases hdrop : type_check.config.to_.is_nullable = true ∨ T.is_non_nullable = true
      · have hc : conforms r.module_ v type_check.config.to_ = true := by
          cases v with
          | null =>
            simp only [conforms] at hconf ⊢
            rcases hdrop with h | h
            · exact h
            · rw [is_nullable_of_is_non_nullable _ h] at hconf
              cases hconf
          | object heap => exact htrans _ _ _ hconf hsub
          | word32 n => simp [conforms] at hconf
          | void => simp [conforms] at hconf
        refine ⟨OpIndex.Valid g.length, [Operation.Word32Constant 1],
          vals ++ [Value.word32 1], ?_, ?_, ?_⟩
        · rcases hdrop with h | h <;> simp [h, Emit_apply]
        · simp [run, evalOp]
        · rw [← hlen, valueAt_append_new, if_pos hc]
      · have h1 : type_check.config.to_.is_nullable = false := by
          cases h : type_check.config.to_.is_nullable
          · rfl
          · exact absurd (Or.inl h) hdrop
        have h2 : T.is_non_nullable = false := by
          cases h : T.is_non_nullable
          · rfl
          · exact absurd (Or.inr h) hdrop
        cases v with
        | null =>
          have hc : conforms r.module_ Value.null type_check.config.to_ = false := by
            simp [conforms, h1]
          refine ⟨OpIndex.Valid (g.length + 2),
            [Operation.IsNull (OpIndex.Valid i) T, Operation.Word32Constant 0,
              Operation.Word32Equal (OpIndex.Valid g.length) (OpIndex.Valid (g.length + 1))],
            vals ++ [Value.word32 1] ++ [Value.word32 0] ++ [Value.word32 0], ?_, ?_, ?_⟩
          · simp [h1, h2, Asm.bind_Emit, Emit_apply]
          · simp [run, evalOp, hvi, ← hlen, valueAt_append_right, valueAt_append_zero]
          · simp [hc, ← hlen, valueAt_append_right]
        | object heap =>
          have hc : conforms r.module_ (Value.object heap) type_check.config.to_ = true :=
            htrans _ _ _ hconf hsub
          refine ⟨OpIndex.Valid (g.length + 2),
            [Operation.IsNull (OpIndex.Valid i) T, Operation.Word32Constant 0,
              Operation.Word32Equal (OpIndex.Valid g.length) (OpIndex.Valid (g.length + 1))],
            vals ++ [Value.word32 0] ++ [Value.word32 0] ++ [Value.word32 1], ?_, ?_, ?_⟩
          · simp [h1, h2, Asm.bind_Emit, Emit_apply]
          · simp [run, evalOp, hvi, ← hlen, valueAt_append_right, valueAt_append_zero]
          · simp [hc, ← hlen, valueAt_append_right]
        | word32 n => simp [conforms] at hconf
        | void => simp [conforms] at hconf
    | false =>
      cases hunrel : r.module_.HeapTypesUnrelated T.heap_type
          type_check.config.to_.heap_type with
      | true =>
        have hobjfail : ∀ heap : H, conforms r.module_ (Value.object heap) T = true →
            conforms r.module_ (Value.object heap) type_check.config.to_ = false := by
          intro heap h
          cases hc : conforms r.module_ (Value.object heap) type_check.config.to_
          · rfl
          · exact absurd ⟨h, hc⟩ (hdisj _ _ hunrel heap)
        cases hb : (type_check.config.to_.is_nullable && T.is_nullable) with
        | true =>
          simp only [Bool.and_eq_true] at hb
          cases v with
          | null =>
            have hc : conforms r.module_ Value.null type_check.config.to_ = true := by
              simp [conforms, hb.1]
            refine ⟨OpIndex.Valid g.length, [Operation.IsNull (OpIndex.Valid i) T],
              vals ++ [Value.word32 1], ?_, ?_, ?_⟩
            · simp [hb.1, hb.2, Emit_apply]
            · simp [run, evalOp, hvi]
            · rw [← hlen, valueAt_append_new, if_pos hc]
          | object heap =>
            refine ⟨OpIndex.Valid g.length, [Operation.IsNull (OpIndex.Valid i) T],
              vals ++ [Value.word32 0], ?_, ?_, ?_⟩
            · simp [hb.1, hb.2, Emit_apply]
            · simp [run, evalOp, hvi]
            · rw [← hlen, valueAt_append_new]
              simp [hobjfail heap hconf]
          | word32 n => simp [conforms] at hconf
          | void => simp [conforms] at hconf
        | false =>
          have hc : conforms r.module_ v type_check.config.to_ = false := by
            cases v with
            | null =>
              simp only [conforms] at hconf ⊢
              rw [hconf] at hb
              simpa using hb
            | object heap => exact hobjfail heap hconf
            | word32 n => simp [conforms] at hconf
            | void => simp [conforms] at hconf
          refine ⟨OpIndex.Valid g.length, [Operation.Word32Constant 0],
            vals ++ [Value.word32 0], ?_, ?_, ?_⟩
          · simp [hb, Emit_apply]
          · simp [run, evalOp]
          · rw [← hlen, valueAt_append_new]
            simp [hc]
      | false =>
        refine ⟨OpIndex.Valid g.length,
          [Operation.WasmTypeCheck (OpIndex.Valid i) (r.MapToNewGraphIfValid type_check.rtt)
            { from_ := r.module_.Intersection T type_check.config.from_,
              to_ := type_check.config.to_ }],
          vals ++ [Value.word32 (if conforms r.module_ v type_check.config.to_ = true then 1
            else 0)], ?_, ?_, ?_⟩
        · simp [Emit_apply]
        · simp [run, evalOp, hvi]
        · rw [← hlen, valueAt_append_new]

/-- The small module satisfies the assumptions on the subtyping queries. -/
theorem zooModule_sound : zooModule.Sound := by
  constructor
  · decide
  · decide

/-- Witness of C1: a `cat` whose recorded type is nullable `animal`, cast to
non-null `dog`: the re-emitted cast traps. -/
theorem cast_reduction_preserves_behaviour_witness :
    ∃ (ret : OpIndex) (emitted : List (Operation Zoo)),
      (zooReducer (.ref .animal true)).ReduceInputGraphWasmTypeCast (OpIndex.Valid 5)
          (zooCast (.ref .any true) (.ref .dog false)) zooGraph =
        .ok (ret, zooGraph ++ emitted) ∧
      (if conforms zooModule (Value.object Zoo.cat) (ValueType.ref Zoo.dog false) = true then
        ∃ vals' : List (Value Zoo),
          run zooModule emitted [Value.object Zoo.cat] = .ok vals' ∧
            valueAt vals' ret = some (Value.object Zoo.cat)
      else run zooModule emitted [Value.object Zoo.cat] =
        .error (Fault.Trap TrapId.kTrapIllegalCast)) :=
  cast_reduction_preserves_behaviour (zooReducer (.ref .animal true)) (OpIndex.Valid 5)
    (zooCast (.ref .any true) (.ref .dog false)) (.ref .animal true) zooGraph
    [Value.object Zoo.cat] (Value.object Zoo.cat) zooModule_sound rfl (by decide)
    (by decide) rfl rfl (by decide)

/-- Witness of C2: a `dog` whose recorded type is nullable `animal`, checked against
non-null `dog`: the re-emitted check computes 1. -/
theorem check_reduction_preserves_value_witness :
    ∃ (ret : OpIndex) (emitted : List (Operation Zoo)) (vals' : List (Value Zoo)),
      (zooReducer (.ref .animal true)).ReduceInputGraphWasmTypeCheck (OpIndex.Valid 5)
          (zooCheck (.ref .any true) (.ref .dog false)) zooGraph =
        .ok (ret, zooGraph ++ emitted) ∧
      run zooModule emitted [Value.object Zoo.dog] = .ok vals' ∧
      valueAt vals' ret =
        some (Value.word32
          (if conforms zooModule (Value.object Zoo.dog) (ValueType.ref Zoo.dog false) = true
            then 1 else 0)) :=
  check_reduction_preserves_value (zooReducer (.ref .animal true)) (OpIndex.Valid 5)
    (zooCheck (.ref .any true) (.ref .dog false)) (.ref .animal true) zooGraph
    [Value.object Zoo.dog] (Value.object Zoo.dog) zooModule_sound rfl (by decide)
    (by decide) rfl rfl (by decide)

/-- The reduction of a null test, by cases on the recorded input type. -/
theorem ReduceInputGraphIsNull_eq {H : Type} [DecidableEq H]
    (r : WasmGCTypeReducer H) (op_idx : OpIndex) (is_null : IsNullOp H) (T : ValueType H)
    (g : Graph H) (hT : r.analyzer_.input_type_map_ op_idx = some T) :
    r.ReduceInputGraphIsNull op_idx is_null g =
      (if T.is_non_nullable = true then
        .ok (OpIndex.Valid g.length, g ++ [Operation.Word32Constant 0])
      else if T ≠ ValueType.top ∧ T ≠ kWasmBottom ∧ r.module_.ToNullSentinel T = T then
        .ok (OpIndex.Valid g.length, g ++ [Operation.Word32Constant 1])
      else r.Next.ReduceInputGraphIsNull op_idx is_null g) := by
  simp only [WasmGCTypeReducer.ReduceInputGraphIsNull, bind, Asm.bind, liftExcept,
    GetInputType_entry _ _ _ hT]
  by_cases h1 : T.is_non_nullable = true
  · simp [h1, Emit_apply]
  · by_cases h2 : T ≠ ValueType.top ∧ T ≠ kWasmBottom ∧ r.module_.ToNullSentinel T = T
    · rw [if_neg h1, if_neg h1, if_pos h2, if_pos h2]
      rfl
    · rw [if_neg h1, if_neg h1, if_neg h2, if_neg h2]

/-- C11: a null test is folded to the constant 0 if the recorded input type is
non-nullable, to the constant 1 if it is not non-nullable, neither top nor bottom and equal
to its null sentinel, and is the default reduction in every remaining case.  The two folds
are not both applicable, and when the default reduction does not itself yield the constant
1 the test is folded to 1 only for a type that is its null sentinel. -/
theorem is_null_folded {H : Type} [DecidableEq H]
    (r : WasmGCTypeReducer H) (op_idx : OpIndex) (is_null : IsNullOp H) (T : ValueType H)
    (g : Graph H) (hT : r.analyzer_.input_type_map_ op_idx = some T) :
    r.ReduceInputGraphIsNull op_idx is_null g =
      (if T.is_non_nullable = true then
        .ok (OpIndex.Valid g.length, g ++ [Operation.Word32Constant 0])
      else if T ≠ ValueType.top ∧ T ≠ kWasmBottom ∧ r.module_.ToNullSentinel T = T then
        .ok (OpIndex.Valid g.length, g ++ [Operation.Word32Constant 1])
      else r.Next.ReduceInputGraphIsNull op_idx is_null g) ∧
    ¬ (T.is_non_nullable = true ∧
      (T.is_non_nullable = false ∧ T ≠ ValueType.top ∧ T ≠ kWasmBottom ∧
        r.module_.ToNullSentinel T = T)) ∧
    (r.Next.ReduceInputGraphIsNull op_idx is_null g ≠
        .ok (OpIndex.Valid g.length, g ++ [Operation.Word32Constant 1]) →
      r.ReduceInputGraphIsNull op_idx is_null g =
        .ok (OpIndex.Valid g.length, g ++ [Operation.Word32Constant 1]) →
      r.module_.ToNullSentinel T = T ∧ T.is_non_nullable = false) := by
  have hred := ReduceInputGraphIsNull_eq r op_idx is_null T g hT
  refine ⟨hred, ?_, ?_⟩
  · rintro ⟨h1, h2, -⟩
    rw [h1] at h2
    cases h2
  · intro hnext hone
    rw [hred] at hone
    by_cases h1 : T.is_non_nullable = true
    · rw [if_pos h1] at hone
      simp at hone
    · rw [if_neg h1] at hone
      by_cases h2 : T ≠ ValueType.top ∧ T ≠ kWasmBottom ∧ r.module_.ToNullSentinel T = T
      · exact ⟨h2.2.2, by simpa using h1⟩
      · rw [if_neg h2] at hone
        exact absurd hone hnext

/-- Witness of C11: the nullable `none` type is its own null sentinel, so the test is folded
to the constant 1. -/
theorem is_null_folded_witness :
    (zooReducer (.ref .none true)).ReduceInputGraphIsNull (OpIndex.Valid 5) zooIsNull
      zooGraph = .ok (OpIndex.Valid 1, zooGraph ++ [Operation.Word32Constant 1]) :=
  (is_null_folded (zooReducer (.ref .none true)) (OpIndex.Valid 5) zooIsNull
    (.ref .none true) zooGraph rfl).1

/-- C12: for `StructGet`, `StructSet` and `ArrayLength` with a null check and a non-nullable
recorded input type the reducer emits exactly one operation of the same kind, on the images
of the operands, without the null check and with every other field unchanged; if the
operation has no null check or the recorded type is not non-nullable, the result is the
default reduction. -/
theorem null_check_elided {H : Type} (r : WasmGCTypeReducer H) :
    (∀ (op_idx : OpIndex) (struct_get : StructGetOp) (T : ValueType H) (g : Graph H),
      r.analyzer_.input_type_map_ op_idx = some T →
      (struct_get.null_check = CheckForNull.kWithNullCheck → T.is_non_nullable = true →
        r.ReduceInputGraphStructGet op_idx struct_get g =
          .ok (OpIndex.Valid g.length,
            g ++ [Operation.StructGet (r.MapToNewGraph struct_get.object) struct_get.type
              struct_get.field_index struct_get.is_signed
              CheckForNull.kWithoutNullCheck])) ∧
      (struct_get.null_check = CheckForNull.kWithoutNullCheck ∨ T.is_non_nullable = false →
        r.ReduceInputGraphStructGet op_idx struct_get g =
          r.Next.ReduceInputGraphStructGet op_idx struct_get g)) ∧
    (∀ (op_idx : OpIndex) (struct_set : StructSetOp) (T : ValueType H) (g : Graph H),
      r.analyzer_.input_type_map_ op_idx = some T →
      (struct_set.null_check = CheckForNull.kWithNullCheck → T.is_non_nullable = true →
        r.ReduceInputGraphStructSet op_idx struct_set g =
          .ok (OpIndex.Invalid,
            g ++ [Operation.StructSet (r.MapToNewGraph struct_set.object)
              (r.MapToNewGraph struct_set.value) struct_set.type struct_set.field_index
              CheckForNull.kWithoutNullCheck])) ∧
      (struct_set.null_check = CheckForNull.kWithoutNullCheck ∨ T.is_non_nullable = false →
        r.ReduceInputGraphStructSet op_idx struct_set g =
          r.Next.ReduceInputGraphStructSet op_idx struct_set g)) ∧
    (∀ (op_idx : OpIndex) (array_length : ArrayLengthOp) (T : ValueType H) (g : Graph H),
      r.analyzer_.input_type_map_ op_idx = some T →
      (array_length.null_check = CheckForNull.kWithNullCheck → T.is_non_nullable = true →
        r.ReduceInputGraphArrayLength op_idx array_length g =
          .ok (OpIndex.Valid g.length,
            g ++ [Operation.ArrayLength (r.MapToNewGraph array_length.array)
              CheckForNull.kWithoutNullCheck])) ∧
      (array_length.null_check = CheckForNull.kWithoutNullCheck ∨
          T.is_non_nullable = false →
        r.ReduceInputGraphArrayLength op_idx array_length g =
          r.Next.ReduceInputGraphArrayLength op_idx array_length g)) := by
  refine ⟨?_, ?_, ?_⟩
  · intro op_idx struct_get T g hT
    simp only [WasmGCTypeReducer.ReduceInputGraphStructGet, bind, Asm.bind, liftExcept,
      GetInputType_entry _ _ _ hT]
    constructor
    · intro h1 h2
      simp [h1, h2, Emit_apply]
    · rintro (h | h) <;> simp [h]
  · intro op_idx struct_set T g hT
    simp only [WasmGCTypeReducer.ReduceInputGraphStructSet, bind, Asm.bind, liftExcept,
      GetInputType_entry _ _ _ hT]
    constructor
    · intro h1 h2
      simp [h1, h2, Asm.bind_Emit, pure, Asm.pure]
    · rintro (h | h) <;> simp [h]
  · intro op_idx array_length T g hT
    simp only [WasmGCTypeReducer.ReduceInputGraphArrayLength, bind, Asm.bind, liftExcept,
      GetInputType_entry _ _ _ hT]
    constructor
    · intro h1 h2
      simp [h1, h2, Emit_apply]
    · rintro (h | h) <;> simp [h]

/-- Witness of C12: with the recorded type non-null `dog`, the checked read of field 0, the
checked write of field 2 and the checked length query lose their null check and nothing
else; an unchecked read is the default reduction. -/
theorem null_check_elided_witness :
    (zooReducer (.ref .dog false)).ReduceInputGraphStructGet (OpIndex.Valid 5)
        (zooStructGet CheckForNull.kWithNullCheck) zooGraph =
      .ok (OpIndex.Valid 1,
        zooGraph ++ [Operation.StructGet (OpIndex.Valid 0) 7 0 true
          CheckForNull.kWithoutNullCheck]) ∧
    (zooReducer (.ref .dog false)).ReduceInputGraphStructGet (OpIndex.Valid 5)
        (zooStructGet CheckForNull.kWithoutNullCheck) zooGraph =
      (zooReducer (.ref .dog false)).Next.ReduceInputGraphStructGet (OpIndex.Valid 5)
        (zooStructGet CheckForNull.kWithoutNullCheck) zooGraph ∧
    (zooReducer (.ref .dog false)).ReduceInputGraphStructSet (OpIndex.Valid 5)
        (zooStructSet CheckForNull.kWithNullCheck) zooGraph =
      .ok (OpIndex.Invalid,
        zooGraph ++ [Operation.StructSet (OpIndex.Valid 0) (OpIndex.Valid 1) 7 2
          CheckForNull.kWithoutNullCheck]) ∧
    (zooReducer (.ref .dog false)).ReduceInputGraphArrayLength (OpIndex.Valid 5)
        (zooArrayLength CheckForNull.kWithNullCheck) zooGraph =
      .ok (OpIndex.Valid 1,
        zooGraph ++ [Operation.ArrayLength (OpIndex.Valid 0)
          CheckForNull.kWithoutNullCheck]) :=
  ⟨((null_check_elided (zooReducer (.ref .dog false))).1 (OpIndex.Valid 5)
      (zooStructGet CheckForNull.kWithNullCheck) (.ref .dog false) zooGraph rfl).1 rfl rfl,
    ((null_check_elided (zooReducer (.ref .dog false))).1 (OpIndex.Valid 5)
      (zooStructGet CheckForNull.kWithoutNullCheck) (.ref .dog false) zooGraph rfl).2
      (Or.inl rfl),
    ((null_check_elided (zooReducer (.ref .dog false))).2.1 (OpIndex.Valid 5)
      (zooStructSet CheckForNull.kWithNullCheck) (.ref .dog false) zooGraph rfl).1 rfl rfl,
    ((null_check_elided (zooReducer (.ref .dog false))).2.2 (OpIndex.Valid 5)
      (zooArrayLength CheckForNull.kWithNullCheck) (.ref .dog false) zooGraph rfl).1
      rfl rfl⟩

/-- C13: on a valid object whose defining operation in the output graph is
`ExternConvertAny(x)` the reduction of `AnyConvertExtern` emits nothing and returns `x`; on
an invalid object, or one that is not defined by an `ExternConvertAny`, it is the default
reduction. -/
theorem any_convert_extern_of_extern_convert_any {H : Type} (r : WasmGCTypeReducer H)
    (object : OpIndex) (g : Graph H) :
    (∀ x : OpIndex, object.valid = true →
      Graph.Get g object = some (Operation.ExternConvertAny x) →
      r.ReduceAnyConvertExtern object g = .ok (x, g)) ∧
    ((object.valid = false ∨
        ∀ x : OpIndex, Graph.Get g object ≠ some (Operation.ExternConvertAny x)) →
      r.ReduceAnyConvertExtern object g = r.Next.ReduceAnyConvertExtern object g) := by
  constructor
  · intro x hvalid hget
    simp [WasmGCTypeReducer.ReduceAnyConvertExtern, hvalid, hget]
  · rintro (h | h)
    · simp [WasmGCTypeReducer.ReduceAnyConvertExtern, h]
    · unfold WasmGCTypeReducer.ReduceAnyConvertExtern
      split
      · split
        · next x heq => exact absurd heq (h x)
        · rfl
      · rfl

/-- Witness of C13: the object at index 1 is `ExternConvertAny` of index 0, so index 0 is
returned and nothing is emitted; the object at index 0 is another operation, so the default
reduction emits the `AnyConvertExtern` unchanged. -/
theorem any_convert_extern_of_extern_convert_any_witness :
    (zooReducer (.ref .any true)).ReduceAnyConvertExtern (OpIndex.Valid 1)
        [Operation.Other 0, Operation.ExternConvertAny (OpIndex.Valid 0)] =
      .ok (OpIndex.Valid 0,
        [Operation.Other 0, Operation.ExternConvertAny (OpIndex.Valid 0)]) ∧
    (zooReducer (.ref .any true)).ReduceAnyConvertExtern (OpIndex.Valid 0)
        [Operation.Other 0, Operation.ExternConvertAny (OpIndex.Valid 0)] =
      .ok (OpIndex.Valid 2,
        [Operation.Other 0, Operation.ExternConvertAny (OpIndex.Valid 0),
          Operation.AnyConvertExtern (OpIndex.Valid 0)]) :=
  ⟨(any_convert_extern_of_extern_convert_any (zooReducer (.ref .any true)) (OpIndex.Valid 1)
      [Operation.Other 0, Operation.ExternConvertAny (OpIndex.Valid 0)]).1 (OpIndex.Valid 0)
      rfl rfl,
    (any_convert_extern_of_extern_convert_any (zooReducer (.ref .any true)) (OpIndex.Valid 0)
      [Operation.Other 0, Operation.ExternConvertAny (OpIndex.Valid 0)]).2
      (Or.inr (by intro x h; cases h))⟩

/-- C14, amended: an inward conversion `AnyConvertExtern` applied to the result of the
outward conversion `ExternConvertAny(x)` that was just emitted is reduced to `x` itself; no
`AnyConvertExtern` is emitted, and the `ExternConvertAny` stays in the output graph. -/
theorem any_convert_extern_after_extern_convert_any {H : Type} (r : WasmGCTypeReducer H)
    (g : Graph H) (x : OpIndex) :
    r.ReduceAnyConvertExtern (OpIndex.Valid g.length) (g ++ [Operation.ExternConvertAny x]) =
      .ok (x, g ++ [Operation.ExternConvertAny x]) := by
  simp [WasmGCTypeReducer.ReduceAnyConvertExtern, OpIndex.valid, Graph.Get]

/-- C14, counterexample: the outward conversion `ExternConvertAny` applied to the result of
`AnyConvertExtern(x)` is not reduced: the reducer has no reduction of its own for it, the
default one emits it, and both conversions are in the output.  In the direction that is
reduced, the `ExternConvertAny` is still in the output graph afterwards. -/
theorem any_convert_extern_after_extern_convert_any_counterexample :
    (zooReducer (.ref .any true)).ReduceExternConvertAny (OpIndex.Valid 1)
        [Operation.Other 0, Operation.AnyConvertExtern (OpIndex.Valid 0)] =
      .ok (OpIndex.Valid 2,
        [Operation.Other 0, Operation.AnyConvertExtern (OpIndex.Valid 0),
          Operation.ExternConvertAny (OpIndex.Valid 1)]) ∧
    (zooReducer (.ref .any true)).ReduceAnyConvertExtern (OpIndex.Valid 1)
        [Operation.Other 0, Operation.ExternConvertAny (OpIndex.Valid 0)] =
      .ok (OpIndex.Valid 0,
        [Operation.Other 0, Operation.ExternConvertAny (OpIndex.Valid 0)]) :=
  ⟨rfl, rfl⟩

/-- C15: when the recorded input type is bottom or the default "no information" type, the
reduction of a cast, a check, a null assertion, a null test, a struct read, a struct write
and a length query is exactly the default reduction of the operation. -/
theorem bottom_or_top_is_default {H : Type} [DecidableEq H] [Inhabited H]
    (r : WasmGCTypeReducer H) (op_idx : OpIndex) (T : ValueType H) (g : Graph H)
    (hT : r.analyzer_.input_type_map_ op_idx = some T)
    (hsentinel : T = kWasmBottom ∨ T = ValueType.top) :
    (∀ cast_op : WasmTypeCastOp H,
      r.ReduceInputGraphWasmTypeCast op_idx cast_op g =
        r.Next.ReduceInputGraphWasmTypeCast op_idx cast_op g) ∧
    (∀ type_check : WasmTypeCheckOp H,
      r.ReduceInputGraphWasmTypeCheck op_idx type_check g =
        r.Next.ReduceInputGraphWasmTypeCheck op_idx type_check g) ∧
    (∀ assert_not_null : AssertNotNullOp H,
      r.ReduceInputGraphAssertNotNull op_idx assert_not_null g =
        r.Next.ReduceInputGraphAssertNotNull op_idx assert_not_null g) ∧
    (∀ is_null : IsNullOp H,
      r.ReduceInputGraphIsNull op_idx is_null g =
        r.Next.ReduceInputGraphIsNull op_idx is_null g) ∧
    (∀ struct_get : StructGetOp,
      r.ReduceInputGraphStructGet op_idx struct_get g =
        r.Next.ReduceInputGraphStructGet op_idx struct_get g) ∧
    (∀ struct_set : StructSetOp,
      r.ReduceInputGraphStructSet op_idx struct_set g =
        r.Next.ReduceInputGraphStructSet op_idx struct_set g) ∧
    (∀ array_length : ArrayLengthOp,
      r.ReduceInputGraphArrayLength op_idx array_length g =
        r.Next.ReduceInputGraphArrayLength op_idx array_length g) := by
  have hnn : T.is_non_nullable = false := by
    rcases hsentinel with h | h <;> subst h <;> rfl
  have hguard : ¬ (T ≠ ValueType.top ∧ T ≠ kWasmBottom) := by
    rcases hsentinel with h | h <;> subst h <;> simp
  refine ⟨?_, ?_, ?_, ?_, ?_, ?_, ?_⟩
  · intro cast_op
    simp only [WasmGCTypeReducer.ReduceInputGraphWasmTypeCast, bind, Asm.bind, liftExcept,
      GetInputType_entry _ _ _ hT]
    rw [if_neg hguard]
  · intro type_check
    simp only [WasmGCTypeReducer.ReduceInputGraphWasmTypeCheck, bind, Asm.bind, liftExcept,
      GetInputType_entry _ _ _ hT]
    rw [if_neg hguard]
  · intro assert_not_null
    simp [WasmGCTypeReducer.ReduceInputGraphAssertNotNull, bind, Asm.bind, liftExcept,
      GetInputType_entry _ _ _ hT, hnn]
  · intro is_null
    have hguard3 : ¬ (T ≠ ValueType.top ∧ T ≠ kWasmBottom ∧
        r.module_.ToNullSentinel T = T) := fun h => hguard ⟨h.1, h.2.1⟩
    simp only [WasmGCTypeReducer.ReduceInputGraphIsNull, bind, Asm.bind, liftExcept,
      GetInputType_entry _ _ _ hT]
    rw [hnn, if_neg (by simp), if_neg hguard3]
  · intro struct_get
    simp [WasmGCTypeReducer.ReduceInputGraphStructGet, bind, Asm.bind, liftExcept,
      GetInputType_entry _ _ _ hT, hnn]
  · intro struct_set
    simp [WasmGCTypeReducer.ReduceInputGraphStructSet, bind, Asm.bind, liftExcept,
      GetInputType_entry _ _ _ hT, hnn]
  · intro array_length
    simp [WasmGCTypeReducer.ReduceInputGraphArrayLength, bind, Asm.bind, liftExcept,
      GetInputType_entry _ _ _ hT, hnn]

/-- Witness of C15: with the recorded type bottom, a cast of a `dog` to `animal`, which
would be dropped for the recorded type `dog`, and a checked struct read are emitted
unchanged by the default reduction. -/
theorem bottom_or_top_is_default_witness :
    (zooReducer kWasmBottom).ReduceInputGraphWasmTypeCast (OpIndex.Valid 5)
        (zooCast (.ref .dog false) (.ref .animal true)) zooGraph =
      .ok (OpIndex.Valid 1,
        zooGraph ++ [Operation.WasmTypeCast (OpIndex.Valid 0) OpIndex.Invalid
          { from_ := .ref .dog false, to_ := .ref .animal true }]) ∧
    (zooReducer kWasmBottom).ReduceInputGraphStructGet (OpIndex.Valid 5)
        (zooStructGet CheckForNull.kWithNullCheck) zooGraph =
      .ok (OpIndex.Valid 1,
        zooGraph ++ [Operation.StructGet (OpIndex.Valid 0) 7 0 true
          CheckForNull.kWithNullCheck]) :=
  ⟨(bottom_or_top_is_default (zooReducer kWasmBottom) (OpIndex.Valid 5) kWasmBottom zooGraph
      rfl (Or.inl rfl)).1 (zooCast (.ref .dog false) (.ref .animal true)),
    (bottom_or_top_is_default (zooReducer kWasmBottom) (OpIndex.Valid 5) kWasmBottom zooGraph
      rfl (Or.inl rfl)).2.2.2.2.1 (zooStructGet CheckForNull.kWithNullCheck)⟩

/-- C17, amended: a cast whose recorded input type is neither top nor bottom and is a heap
subtype of the target, or is heap-unrelated to it and not an implicit internalization, and
a check whose recorded input type is a heap subtype of the target or heap-unrelated to it,
are reduced to operations among which there is no `WasmTypeCast` and no `WasmTypeCheck`. -/
theorem decidable_cast_or_check_removed {H : Type} [DecidableEq H] [Inhabited H]
    (r : WasmGCTypeReducer H) :
    (∀ (op_idx : OpIndex) (cast_op : WasmTypeCastOp H) (T : ValueType H) (g : Graph H),
      r.analyzer_.input_type_map_ op_idx = some T →
      T ≠ ValueType.top → T ≠ kWasmBottom →
      (r.module_.IsHeapSubtypeOf T.heap_type cast_op.config.to_.heap_type = true ∨
        (r.module_.HeapTypesUnrelated T.heap_type cast_op.config.to_.heap_type = true ∧
          r.module_.IsImplicitInternalization T cast_op.config.to_ = false)) →
      ∃ (ret : OpIndex) (emitted : List (Operation H)),
        r.ReduceInputGraphWasmTypeCast op_idx cast_op g = .ok (ret, g ++ emitted) ∧
          ∀ op ∈ emitted, op.IsTypeCastOrCheck = false) ∧
    (∀ (op_idx : OpIndex) (type_check : WasmTypeCheckOp H) (T : ValueType H) (g : Graph H),
      r.analyzer_.input_type_map_ op_idx = some T →
      T ≠ ValueType.top → T ≠ kWasmBottom →
      (r.module_.IsHeapSubtypeOf T.heap_type type_check.config.to_.heap_type = true ∨
        r.module_.HeapTypesUnrelated T.heap_type type_check.config.to_.heap_type = true) →
      ∃ (ret : OpIndex) (emitted : List (Operation H)),
        r.ReduceInputGraphWasmTypeCheck op_idx type_check g = .ok (ret, g ++ emitted) ∧
          ∀ op ∈ emitted, op.IsTypeCastOrCheck = false) := by
  constructor
  · intro op_idx cast_op T g hT htop hbot hdec
    simp only [WasmGCTypeReducer.ReduceInputGraphWasmTypeCast, bind, Asm.bind, liftExcept,
      GetInputType_entry _ _ _ hT]
    rw [if_pos ⟨htop, hbot⟩]
    cases hsub : r.module_.IsHeapSubtypeOf T.heap_type cast_op.config.to_.heap_type
    · rcases hdec with h | ⟨hunrel, himpl⟩
      · rw [hsub] at h
        cases h
      · cases hb : (T.is_nullable && cast_op.config.to_.is_nullable)
        · exact ⟨r.MapToNewGraph cast_op.object,
            [Operation.Word32Constant 0,
              Operation.TrapIfNot (OpIndex.Valid g.length) OpIndex.Invalid
                TrapId.kTrapIllegalCast],
            by simp [hunrel, himpl, hb, Asm.bind_Emit, pure, Asm.pure],
            by simp [Operation.IsTypeCastOrCheck]⟩
        · exact ⟨r.MapToNewGraph cast_op.object,
            [Operation.IsNull (r.MapToNewGraph cast_op.object) T,
              Operation.TrapIfNot (OpIndex.Valid g.length) OpIndex.Invalid
                TrapId.kTrapIllegalCast],
            by simp [hunrel, himpl, hb, Asm.bind_Emit, pure, Asm.pure],
            by simp [Operation.IsTypeCastOrCheck]⟩
    · cases hd : (cast_op.config.to_.is_nullable || T.is_non_nullable)
      · exact ⟨OpIndex.Valid g.length,
          [Operation.AssertNotNull (r.MapToNewGraph cast_op.object) T
            TrapId.kTrapIllegalCast],
          by simp [hd, Emit_apply], by simp [Operation.IsTypeCastOrCheck]⟩
      · exact ⟨r.MapToNewGraph cast_op.object, [],
          by simp [hd, pure, Asm.pure], by simp⟩
  · intro op_idx type_check T g hT htop hbot hdec
    simp only [WasmGCTypeReducer.ReduceInputGraphWasmTypeCheck, bind, Asm.bind, liftExcept,
      GetInputType_entry _ _ _ hT]
    rw [if_pos ⟨htop, hbot⟩]
    cases hsub : r.module_.IsHeapSubtypeOf T.heap_type type_check.config.to_.heap_type
    · rcases hdec with h | hunrel
      · rw [hsub] at h
        cases h
      · cases hb : (type_check.config.to_.is_nullable && T.is_nullable)
        · exact ⟨OpIndex.Valid g.length, [Operation.Word32Constant 0],
            by simp [hunrel, hb, Emit_apply], by simp [Operation.IsTypeCastOrCheck]⟩
        · exact ⟨OpIndex.Valid g.length,
            [Operation.IsNull (r.MapToNewGraph type_check.object) T],
            by simp [hunrel, hb, Emit_apply], by simp [Operation.IsTypeCastOrCheck]⟩
    · cases hd : (type_check.config.to_.is_nullable || T.is_non_nullable)
      · exact ⟨OpIndex.Valid (g.length + 2),
          [Operation.IsNull (r.MapToNewGraph type_check.object) T,
            Operation.Word32Constant 0,
            Operation.Word32Equal (OpIndex.Valid g.length) (OpIndex.Valid (g.length + 1))],
          by simp [hd, Asm.bind_Emit, Emit_apply], by simp [Operation.IsTypeCastOrCheck]⟩
      · exact ⟨OpIndex.Valid g.length, [Operation.Word32Constant 1],
          by simp [hd, Emit_apply], by simp [Operation.IsTypeCastOrCheck]⟩

/-- Witness of C17, amended: a nullable `cat` cast to nullable `dog`, and checked against
it: the heap types are unrelated and neither a cast nor a check is emitted. -/
theorem decidable_cast_or_check_removed_witness :
    (∃ (ret : OpIndex) (emitted : List (Operation Zoo)),
      (zooReducer (.ref .cat true)).ReduceInputGraphWasmTypeCast (OpIndex.Valid 5)
          (zooCast (.ref .any true) (.ref .dog true)) zooGraph =
        .ok (ret, zooGraph ++ emitted) ∧
        ∀ op ∈ emitted, op.IsTypeCastOrCheck = false) ∧
    (∃ (ret : OpIndex) (emitted : List (Operation Zoo)),
      (zooReducer (.ref .cat true)).ReduceInputGraphWasmTypeCheck (OpIndex.Valid 5)
          (zooCheck (.ref .any true) (.ref .dog true)) zooGraph =
        .ok (ret, zooGraph ++ emitted) ∧
        ∀ op ∈ emitted, op.IsTypeCastOrCheck = false) :=
  ⟨(decidable_cast_or_check_removed (zooReducer (.ref .cat true))).1 (OpIndex.Valid 5)
      (zooCast (.ref .any true) (.ref .dog true)) (.ref .cat true) zooGraph rfl
      (by decide) (by decide) (Or.inr ⟨by decide, by decide⟩),
    (decidable_cast_or_check_removed (zooReducer (.ref .cat true))).2 (OpIndex.Valid 5)
      (zooCheck (.ref .any true) (.ref .dog true)) (.ref .cat true) zooGraph rfl
      (by decide) (by decide) (Or.inr (by decide))⟩

/-- C17, counterexample: the recorded input type nullable `externref` is neither top nor
bottom and its heap type is unrelated to the target `animal`, but it is an implicit
internalization: the reducer emits a `WasmTypeCast`. -/
theorem decidable_cast_or_check_removed_counterexample :
    ValueType.ref Zoo.externref true ≠ ValueType.top ∧
    ValueType.ref Zoo.externref true ≠ kWasmBottom ∧
    zooModule.HeapTypesUnrelated (ValueType.ref Zoo.externref true).heap_type
        (ValueType.ref Zoo.animal true).heap_type = true ∧
    (zooReducer (.ref .externref true)).ReduceInputGraphWasmTypeCast (OpIndex.Valid 5)
        (zooCast (.ref .externref true) (.ref .animal true)) zooGraph =
      .ok (OpIndex.Valid 1,
        zooGraph ++ [Operation.WasmTypeCast (OpIndex.Valid 0) OpIndex.Invalid
          { from_ := .ref .externref true, to_ := .ref .animal true }]) ∧
    (Operation.WasmTypeCast (OpIndex.Valid 0) OpIndex.Invalid
      ({ from_ := .ref .externref true, to_ := .ref .animal true } :
        WasmTypeCheckConfig Zoo)).IsTypeCastOrCheck = true :=
  ⟨by decide, by decide, by decide, rfl, rfl⟩

/-- C18: in the scenario "cast elimination after test", a check `T1` of `P` whose recorded
input type is the declared type of `P`, neither a heap subtype of nor unrelated to the
target, then a cast `T2` of `P` whose recorded input type is a non-nullable heap subtype of
the target, then a checked struct read `F` of `T2` whose recorded input type is
non-nullable, are reduced to exactly two operations: the unchanged check on the image of
`P`, and the struct read on the image of `P` with the same type, field and signedness and
without null check.  No cast is emitted and `T2` is mapped to the image of `P`. -/
theorem cast_elimination_after_test {H : Type} [DecidableEq H] [Inhabited H]
    (r : WasmGCTypeReducer H) (g : Graph H) (P t1 t2 f : OpIndex)
    (type_check : WasmTypeCheckOp H) (cast_op : WasmTypeCastOp H) (struct_get : StructGetOp)
    (T1 T2 T3 : ValueType H)
    (hT1 : r.analyzer_.input_type_map_ t1 = some T1)
    (hT2 : r.analyzer_.input_type_map_ t2 = some T2)
    (hT3 : r.analyzer_.input_type_map_ f = some T3)
    (hP1 : P ≠ t1) (h12 : t1 ≠ t2) (h1f : t1 ≠ f) (h2f : t2 ≠ f)
    (hcheck : type_check.object = P) (hfrom : type_check.config.from_ = T1)
    (hidem : r.module_.Intersection T1 T1 = T1)
    (htop : T1 ≠ ValueType.top) (hbot : T1 ≠ kWasmBottom)
    (hsub1 : r.module_.IsHeapSubtypeOf T1.heap_type type_check.config.to_.heap_type = false)
    (hunrel1 : r.module_.HeapTypesUnrelated T1.heap_type type_check.config.to_.heap_type
      = false)
    (hcast : cast_op.object = P)
    (hsub2 : r.module_.IsHeapSubtypeOf T2.heap_type cast_op.config.to_.heap_type = true)
    (hnn2 : T2.is_non_nullable = true)
    (hget : struct_get.object = t2)
    (hnull : struct_get.null_check = CheckForNull.kWithNullCheck)
    (hnn3 : T3.is_non_nullable = true) :
    ∃ mapping : OpIndex → OpIndex,
      r.VisitOperations
          [(t1, .WasmTypeCheck type_check), (t2, .WasmTypeCast cast_op),
            (f, .StructGet struct_get)] g =
        .ok (mapping,
          g ++ [Operation.WasmTypeCheck (r.MapToNewGraph P)
              (r.MapToNewGraphIfValid type_check.rtt) type_check.config,
            Operation.StructGet (r.MapToNewGraph P) struct_get.type struct_get.field_index
              struct_get.is_signed CheckForNull.kWithoutNullCheck]) ∧
      mapping t1 = OpIndex.Valid g.length ∧
      mapping t2 = r.MapToNewGraph P ∧
      mapping f = OpIndex.Valid (g.length + 1) := by
  have hT2ref : T2 ≠ ValueType.top ∧ T2 ≠ kWasmBottom := by
    cases T2 <;> simp_all [ValueType.is_non_nullable]
  subst hcheck
  subst hget
  have hcfg : ({ from_ := T1, to_ := type_check.config.to_ } : WasmTypeCheckConfig H) =
      type_check.config := by
    rw [← hfrom]
  refine ⟨Function.update (Function.update (Function.update r.op_mapping t1
    (OpIndex.Valid g.length)) struct_get.object (r.op_mapping type_check.object)) f
    (OpIndex.Valid (g.length + 1)),
    ?_, ?_, ?_, ?_⟩
  · simp only [WasmGCTypeReducer.VisitOperations,
      WasmGCTypeReducer.ReduceInputGraphOperation,
      WasmGCTypeReducer.ReduceInputGraphWasmTypeCheck,
      WasmGCTypeReducer.ReduceInputGraphWasmTypeCast,
      WasmGCTypeReducer.ReduceInputGraphStructGet,
      WasmGCTypeReducer.MapToNewGraph, WasmGCTypeReducer.MapToNewGraphIfValid,
      bind, Asm.bind, liftExcept, GetInputType_entry _ _ _ hT1,
      GetInputType_entry _ _ _ hT2, GetInputType_entry _ _ _ hT3]
    simp [htop, hbot, hsub1, hunrel1, hfrom, hidem, hcfg, hcast, hsub2, hnn2,
      hT2ref.1, hT2ref.2, hnull, hnn3, Emit_apply, pure, Asm.pure]
    rw [hcast, Function.update_noteq hP1]
    exact ⟨rfl, rfl⟩
  · rw [Function.update_noteq h1f, Function.update_noteq h12, Function.update_same]
  · rw [Function.update_noteq h2f, Function.update_same]
    rfl
  · rw [Function.update_same]

/-- Witness of C18: the scenario over the small module: the check of `P` against `dog`
stays, the cast is mapped to the image of `P`, and field 0 is read from the image of `P`
without null check. -/
theorem cast_elimination_after_test_witness :
    ∃ mapping : OpIndex → OpIndex,
      zooScenarioReducer.VisitOperations zooScenario zooGraph =
        .ok (mapping,
          zooGraph ++ [Operation.WasmTypeCheck (OpIndex.Valid 0) OpIndex.Invalid
              { from_ := .ref .any true, to_ := .ref .dog false },
            Operation.StructGet (OpIndex.Valid 0) 7 0 true CheckForNull.kWithoutNullCheck]) ∧
      mapping (OpIndex.Valid 1) = OpIndex.Valid 1 ∧
      mapping (OpIndex.Valid 2) = OpIndex.Valid 0 ∧
      mapping (OpIndex.Valid 3) = OpIndex.Valid 2 :=
  cast_elimination_after_test zooScenarioReducer zooGraph (OpIndex.Valid 0) (OpIndex.Valid 1)
    (OpIndex.Valid 2) (OpIndex.Valid 3) (zooCheck (.ref .any true) (.ref .dog false))
    (zooCast (.ref .any true) (.ref .dog false))
    { object := OpIndex.Valid 2, type := 7, field_index := 0, is_signed := true,
      null_check := CheckForNull.kWithNullCheck }
    (.ref .any true) (.ref .dog false) (.ref .dog false) rfl rfl rfl
    (by decide) (by decide) (by decide) (by decide) rfl rfl rfl (by decide) (by decide)
    (by decide) (by decide) rfl (by decide) (by decide) rfl rfl (by decide)

/-- C19: the query of the recorded input type returns a type exactly when the map has that
entry for the operation, and for an operation without an entry it fails with the fatal
invariant violation instead of returning a type.  The query is a function of the analyzer
and the operation only: it has no access to modify the map. -/
theorem GetInputType_recorded_or_fatal {H : Type} (a : WasmGCTypeAnalyzer H) (op : OpIndex) :
    (∀ T : ValueType H, a.GetInputType op = .ok T ↔ a.input_type_map_ op = some T) ∧
    (a.input_type_map_ op = none → a.GetInputType op = .error Fatal.InputTypeMissing) ∧
    (a.input_type_map_ op = none → ∀ T : ValueType H, a.GetInputType op ≠ .ok T) := by
  refine ⟨?_, ?_, ?_⟩
  · intro T
    unfold WasmGCTypeAnalyzer.GetInputType
    cases h : a.input_type_map_ op with
    | none => simp
    | some type =>
      constructor
      · intro heq
        rw [Except.ok.inj heq]
      · intro heq
        rw [Option.some.inj heq]
  · intro h
    simp [WasmGCTypeAnalyzer.GetInputType, h]
  · intro h T
    simp [WasmGCTypeAnalyzer.GetInputType, h]

/-- Witness of C19: in the scenario the check at index 1 has the entry nullable `any`, and
the operation at index 9 has no entry: the query fails. -/
theorem GetInputType_recorded_or_fatal_witness :
    zooScenarioReducer.analyzer_.GetInputType (OpIndex.Valid 1) =
      .ok (ValueType.ref Zoo.any true) ∧
    zooScenarioReducer.analyzer_.GetInputType (OpIndex.Valid 9) =
      .error Fatal.InputTypeMissing :=
  ⟨((GetInputType_recorded_or_fatal zooScenarioReducer.analyzer_ (OpIndex.Valid 1)).1
      (ValueType.ref Zoo.any true)).2 rfl,
    (GetInputType_recorded_or_fatal zooScenarioReducer.analyzer_ (OpIndex.Valid 9)).2.1 rfl⟩

/-- C20: a cast whose recorded input type is neither top nor bottom, is not a heap
subtype of the target and is an implicit internalization, whether or not the heap types are
unrelated, emits no `TrapIfNot`: it emits exactly the cast with the intersection of the
recorded type and the declared source type as source type and the same target. -/
theorem implicit_internalization_keeps_cast {H : Type} [DecidableEq H] [Inhabited H]
    (r : WasmGCTypeReducer H) (op_idx : OpIndex)
    (cast_op : WasmTypeCastOp H) (T : ValueType H) (g : Graph H)
    (hT : r.analyzer_.input_type_map_ op_idx = some T)
    (htop : T ≠ ValueType.top) (hbot : T ≠ kWasmBottom)
    (hsub : r.module_.IsHeapSubtypeOf T.heap_type cast_op.config.to_.heap_type = false)
    (himpl : r.module_.IsImplicitInternalization T cast_op.config.to_ = true) :
    r.ReduceInputGraphWasmTypeCast op_idx cast_op g =
      .ok (OpIndex.Valid g.length,
        g ++ [Operation.WasmTypeCast (r.MapToNewGraph cast_op.object)
          (r.MapToNewGraphIfValid cast_op.rtt)
          { from_ := r.module_.Intersection T cast_op.config.from_,
            to_ := cast_op.config.to_ }]) := by
  simp only [WasmGCTypeReducer.ReduceInputGraphWasmTypeCast, bind, Asm.bind, liftExcept,
    GetInputType_entry _ _ _ hT]
  simp [htop, hbot, hsub, himpl, Emit_apply]

/-- Witness of C20: a nullable `externref` declared as such, cast to nullable `dog`: the
heap types are unrelated and the cast is re-emitted. -/
theorem implicit_internalization_keeps_cast_witness :
    (zooReducer (.ref .externref true)).ReduceInputGraphWasmTypeCast (OpIndex.Valid 5)
      (zooCast (.ref .externref true) (.ref .dog true)) zooGraph =
      .ok (OpIndex.Valid 1,
        zooGraph ++ [Operation.WasmTypeCast (OpIndex.Valid 0) OpIndex.Invalid
          { from_ := .ref .externref true, to_ := .ref .dog true }]) :=
  implicit_internalization_keeps_cast (zooReducer (.ref .externref true)) (OpIndex.Valid 5)
    (zooCast (.ref .externref true) (.ref .dog true)) (.ref .externref true) zooGraph rfl
    (by decide) (by decide) (by decide) (by decide)

end WasmGC

namespace Runtime

/-- C22: every runtime function classified as never returning is classified as not needing
the exact current context, with and without WebAssembly support. -/
theorem not_NeedsExactContext_of_IsNonReturning (V8_ENABLE_WEBASSEMBLY : Bool)
    (id : FunctionId) (h : IsNonReturning V8_ENABLE_WEBASSEMBLY id = true) :
    NeedsExactContext V8_ENABLE_WEBASSEMBLY id = false := by
  cases id <;> cases V8_ENABLE_WEBASSEMBLY <;>
    simp_all [IsNonReturning, NeedsExactContext]

/-- Witness of C22: `kThrow` never returns and does not need the exact context. -/
theorem not_NeedsExactContext_of_IsNonReturning_witness :
    IsNonReturning true FunctionId.kThrow = true ∧
      NeedsExactContext true FunctionId.kThrow = false :=
  ⟨rfl, not_NeedsExactContext_of_IsNonReturning true FunctionId.kThrow rfl⟩



/-- The matcher accepts two keys iff their lengths are equal and so are their bytes. -/
theorem Match_iff (lhs rhs : IntrinsicFunctionIdentifier) :
    lhs.Match rhs = true ↔
      lhs.length_ = rhs.length_ ∧ lhs.data_.take rhs.length_ = rhs.data_.take rhs.length_ := by
  unfold IntrinsicFunctionIdentifier.Match CompareCharsEqual
  by_cases h : lhs.length_ = rhs.length_ <;> simp [h]

/-- The length of a C string is at most the length of its array. -/
theorem strlen_le (s : List Nat) : strlen s ≤ s.length := by
  unfold strlen
  exact (List.takeWhile_sublist _).length_le

/-- The length of the name of an entry as a C string. -/
theorem cname_length (function : Function) : function.cname.length = strlen function.name := by
  unfold Function.cname
  rw [List.length_take]
  exact Nat.min_eq_left (strlen_le _)

/-- The entry stored for a table entry is found for a name iff the name is the C string of
the entry. -/
theorem lookup_predicate (hasher : List Nat → Nat) (function : Function) (name : List Nat)
    (n : Nat) (hlen : name.length = n) :
    (decide (IntrinsicFunctionIdentifier.Hash hasher { data_ := name, length_ := n } =
        IntrinsicFunctionIdentifier.Hash hasher
          { data_ := function.name, length_ := strlen function.name }) &&
      IntrinsicFunctionIdentifier.Match { data_ := name, length_ := n }
        { data_ := function.name, length_ := strlen function.name }) =
      decide (function.cname = name) := by
  have htake : name.take n = name := by
    rw [← hlen]
    exact List.take_length name
  by_cases h : function.cname = name
  · have hn : n = strlen function.name := by
      rw [← cname_length, h, hlen]
    have hm : IntrinsicFunctionIdentifier.Match { data_ := name, length_ := n }
        { data_ := function.name, length_ := strlen function.name } = true := by
      rw [Match_iff]
      refine ⟨hn, ?_⟩
      show name.take (strlen function.name) = function.cname
      rw [h, ← hn, htake]
    have hh : IntrinsicFunctionIdentifier.Hash hasher { data_ := name, length_ := n } =
        IntrinsicFunctionIdentifier.Hash hasher
          { data_ := function.name, length_ := strlen function.name } := by
      show hasher (name.take n) = hasher (function.name.take (strlen function.name))
      rw [htake]
      exact congrArg hasher h.symm
    simp [hm, hh, h]
  · have hm : IntrinsicFunctionIdentifier.Match { data_ := name, length_ := n }
        { data_ := function.name, length_ := strlen function.name } = false := by
      cases hc : IntrinsicFunctionIdentifier.Match { data_ := name, length_ := n }
        { data_ := function.name, length_ := strlen function.name }
      · rfl
      · exfalso
        rw [Match_iff] at hc
        obtain ⟨h1, h2⟩ := hc
        apply h
        have h1 : n = strlen function.name := h1
        have h3 : name.take (strlen function.name) = function.cname := h2
        rw [← h1, htake] at h3
        exact h3.symm
    simp [hm, h]


/-- The loop of the initialisation followed by a lookup finds what the map held before, or
else the first of the remaining table entries with the name. -/
theorem lookup_InitializeLoop (hasher : List Nat → Nat) (name : List Nat) (n : Nat)
    (hlen : name.length = n) (functions : List Function) :
    ∀ (i : Nat) (map : CustomMatcherHashMap),
      (match (InitializeLoop hasher i functions map).Lookup { data_ := name, length_ := n }
          (IntrinsicFunctionIdentifier.Hash hasher { data_ := name, length_ := n }) with
        | some entry => some entry.value
        | none => none) =
      (match map.Lookup { data_ := name, length_ := n }
          (IntrinsicFunctionIdentifier.Hash hasher { data_ := name, length_ := n }) with
        | some entry => some entry.value
        | none => findByName name i functions) := by
  induction functions with
  | nil =>
    intro i map
    simp only [InitializeLoop, findByName]
  | cons function functions ih =>
    intro i map
    simp only [InitializeLoop]
    rw [ih]
    simp only [CustomMatcherHashMap.InsertNew, CustomMatcherHashMap.Lookup, List.find?_append,
      findByName]
    cases hfind : List.find? (fun e =>
        decide (IntrinsicFunctionIdentifier.Hash hasher { data_ := name, length_ := n } =
          e.hash) && IntrinsicFunctionIdentifier.Match { data_ := name, length_ := n } e.key)
        map with
    | some entry => simp
    | none =>
      simp only [Option.none_or, List.find?_cons, List.find?_nil]
      rw [lookup_predicate hasher function name n hlen]
      by_cases h : function.cname = name <;> simp [h]

/-- The lookup by name is the linear search of the table for the name. -/
theorem FunctionForName_eq_findByName (hasher : List Nat → Nat) (table : List Function)
    (name : List Nat) (n : Nat) (hlen : name.length = n) :
    FunctionForName hasher table name n = findByName name 0 table := by
  unfold FunctionForName InitializeIntrinsicFunctionNames
  simp only []
  rw [lookup_InitializeLoop hasher name n hlen table 0 []]
  simp [CustomMatcherHashMap.Lookup]

/-- What the linear search finds is an entry with the name. -/
theorem findByName_some (name : List Nat) (functions : List Function) :
    ∀ (i j : Nat), findByName name i functions = some j →
      ∃ (k : Nat) (function : Function),
        j = i + k ∧ functions[k]? = some function ∧ function.cname = name := by
  induction functions with
  | nil =>
    intro i j h
    simp [findByName] at h
  | cons function functions ih =>
    intro i j h
    simp only [findByName] at h
    by_cases hc : function.cname = name
    · rw [if_pos hc] at h
      exact ⟨0, function, by simpa using (Option.some.inj h).symm, by simp, hc⟩
    · rw [if_neg hc] at h
      obtain ⟨k, f, hj, hk, hf⟩ := ih (i + 1) j h
      exact ⟨k + 1, f, by omega, by simpa using hk, hf⟩

/-- The linear search finds nothing iff no entry has the name. -/
theorem findByName_none (name : List Nat) (functions : List Function) :
    ∀ i : Nat, findByName name i functions = none ↔
      ∀ function ∈ functions, function.cname ≠ name := by
  induction functions with
  | nil =>
    intro i
    simp [findByName]
  | cons function functions ih =>
    intro i
    simp only [findByName]
    by_cases hc : function.cname = name
    · simp [hc]
    · rw [if_neg hc, ih (i + 1)]
      simp [hc]

/-- With pairwise distinct names the linear search finds every entry under its name. -/
theorem findByName_of_nodup (name : List Nat) (functions : List Function) :
    ∀ (i k : Nat) (function : Function),
      (functions.map Function.cname).Nodup → functions[k]? = some function →
      function.cname = name → findByName name i functions = some (i + k) := by
  induction functions with
  | nil =>
    intro i k function _ hk
    simp at hk
  | cons head functions ih =>
    intro i k function hnodup hk hname
    simp only [List.map_cons, List.nodup_cons] at hnodup
    simp only [findByName]
    cases k with
    | zero =>
      simp only [List.getElem?_cons_zero, Option.some.injEq] at hk
      subst hk
      simp [hname]
    | succ k =>
      simp only [List.getElem?_cons_succ] at hk
      have hmem : function ∈ functions := List.getElem?_mem hk
      have hne : head.cname ≠ name := by
        intro hh
        apply hnodup.1
        rw [hh, ← hname]
        exact List.mem_map_of_mem _ hmem
      rw [if_neg hne, ih (i + 1) k function hnodup.2 hk hname]
      congr 1
      omega


/-- The C string of the name that the macro `I` builds: the underscore followed by the
identifier. -/
theorem cname_I (line : Intrinsic) :
    (I line).cname = 95 :: line.name.take (strlen line.name) := by
  simp [Function.cname, I, strlen, List.takeWhile_cons]

/-- C21: for a byte string `name` of length `n` and a table whose names are pairwise
distinct, `FunctionForName` returns the table entry whose name has length `n` and the same
bytes, and returns `nullptr` iff no entry has that name; the matcher accepts two keys iff
their lengths and their bytes are equal; an inline intrinsic is returned only for its
identifier prefixed with an underscore, and it is returned for it. -/
theorem FunctionForName_finds_entry_by_name (hasher : List Nat → Nat)
    (FOR_EACH_INTRINSIC FOR_EACH_INLINE_INTRINSIC : List Intrinsic) (name : List Nat)
    (n : Nat) (hlen : name.length = n)
    (hdistinct : ((kIntrinsicFunctions FOR_EACH_INTRINSIC
      FOR_EACH_INLINE_INTRINSIC).map Function.cname).Nodup) :
    (∀ i : Nat,
      FunctionForName hasher (kIntrinsicFunctions FOR_EACH_INTRINSIC
          FOR_EACH_INLINE_INTRINSIC) name n = some i ↔
        ∃ function : Function,
          (kIntrinsicFunctions FOR_EACH_INTRINSIC FOR_EACH_INLINE_INTRINSIC)[i]? =
            some function ∧
          function.cname.length = n ∧ function.cname = name) ∧
    (FunctionForName hasher (kIntrinsicFunctions FOR_EACH_INTRINSIC
        FOR_EACH_INLINE_INTRINSIC) name n = none ↔
      ∀ function ∈ kIntrinsicFunctions FOR_EACH_INTRINSIC FOR_EACH_INLINE_INTRINSIC,
        function.cname ≠ name) ∧
    (∀ lhs rhs : IntrinsicFunctionIdentifier,
      lhs.Match rhs = true ↔
        lhs.length_ = rhs.length_ ∧
          lhs.data_.take rhs.length_ = rhs.data_.take rhs.length_) ∧
    (∀ (i : Nat) (function : Function),
      FunctionForName hasher (kIntrinsicFunctions FOR_EACH_INTRINSIC
          FOR_EACH_INLINE_INTRINSIC) name n = some i →
      (kIntrinsicFunctions FOR_EACH_INTRINSIC FOR_EACH_INLINE_INTRINSIC)[i]? =
        some function →
      function.intrinsic_type = IntrinsicType.INLINE →
      ∃ line ∈ FOR_EACH_INLINE_INTRINSIC,
        function = I line ∧ name = 95 :: line.name.take (strlen line.name)) ∧
    (∀ (k : Nat) (line : Intrinsic), FOR_EACH_INLINE_INTRINSIC[k]? = some line →
      FunctionForName hasher (kIntrinsicFunctions FOR_EACH_INTRINSIC
          FOR_EACH_INLINE_INTRINSIC) (95 :: line.name.take (strlen line.name))
          (1 + strlen line.name) = some (FOR_EACH_INTRINSIC.length + k)) := by
  have hiff : ∀ i : Nat,
      FunctionForName hasher (kIntrinsicFunctions FOR_EACH_INTRINSIC
          FOR_EACH_INLINE_INTRINSIC) name n = some i ↔
        ∃ function : Function,
          (kIntrinsicFunctions FOR_EACH_INTRINSIC FOR_EACH_INLINE_INTRINSIC)[i]? =
            some function ∧
          function.cname.length = n ∧ function.cname = name := by
    intro i
    rw [FunctionForName_eq_findByName hasher _ name n hlen]
    constructor
    · intro h
      obtain ⟨k, function, hj, hk, hf⟩ := findByName_some name _ 0 i h
      have hik : i = k := by omega
      subst hik
      exact ⟨function, hk, by rw [hf, hlen], hf⟩
    · rintro ⟨function, hk, -, hf⟩
      have := findByName_of_nodup name _ 0 i function hdistinct hk hf
      simpa using this
  refine ⟨hiff, ?_, Match_iff, ?_, ?_⟩
  · rw [FunctionForName_eq_findByName hasher _ name n hlen]
    exact findByName_none name _ 0
  · intro i function hsome hget hinline
    obtain ⟨function', hget', -, hname⟩ := (hiff i).1 hsome
    rw [hget] at hget'
    have hfeq : function' = function := (Option.some.inj hget').symm
    subst hfeq
    have hmem : function' ∈ kIntrinsicFunctions FOR_EACH_INTRINSIC
        FOR_EACH_INLINE_INTRINSIC := List.getElem?_mem hget
    unfold kIntrinsicFunctions at hmem
    rw [List.mem_append, List.mem_map, List.mem_map] at hmem
    rcases hmem with ⟨line, -, hline⟩ | ⟨line, hmem, hline⟩
    · rw [← hline] at hinline
      simp [F] at hinline
    · refine ⟨line, hmem, hline.symm, ?_⟩
      rw [← hname, ← hline, cname_I]
  · intro k line hk
    have hlen' : (95 :: line.name.take (strlen line.name)).length = 1 + strlen line.name := by
      rw [List.length_cons, List.length_take, Nat.min_eq_left (strlen_le _)]
      omega
    rw [FunctionForName_eq_findByName hasher _ _ _ hlen']
    have hget : (kIntrinsicFunctions FOR_EACH_INTRINSIC
        FOR_EACH_INLINE_INTRINSIC)[FOR_EACH_INTRINSIC.length + k]? = some (I line) := by
      unfold kIntrinsicFunctions
      rw [List.getElem?_append_right (by simp)]
      simp [hk]
    have := findByName_of_nodup _ _ 0 (FOR_EACH_INTRINSIC.length + k) (I line) hdistinct hget
      (cname_I line)
    simpa using this

/-- Witness of C21: in the small table the inline intrinsic is found at index 3 under
`_AsyncFunctionReject`, and the name `AsyncFunctionReject` finds the runtime function at
index 2. -/
theorem FunctionForName_finds_entry_by_name_witness :
    FunctionForName someHasher (kIntrinsicFunctions someIntrinsics someInlineIntrinsics)
        (stringify "_AsyncFunctionReject") 20 = some 3 ∧
    FunctionForName someHasher (kIntrinsicFunctions someIntrinsics someInlineIntrinsics)
        (stringify "AsyncFunctionReject") 19 = some 2 :=
  ⟨((FunctionForName_finds_entry_by_name someHasher someIntrinsics someInlineIntrinsics
      (stringify "_AsyncFunctionReject") 20 (by decide) (by decide)).1 3).2
      ⟨_, rfl, by decide, by decide⟩,
    ((FunctionForName_finds_entry_by_name someHasher someIntrinsics someInlineIntrinsics
      (stringify "AsyncFunctionReject") 19 (by decide) (by decide)).1 2).2
      ⟨_, rfl, by decide, by decide⟩⟩

end Runtime
